import Mathlib

/-!
# Gentee virtual machine: start-up protocol of `vm.Run` and integer assignments

A shallow embedding of `vm/vm.go` (function `Run`), of the constants of
`core/bytecode.go` (type tags, stack selectors, opcodes) and of the integer functions of
`stdlib/int.go`.  Machine integers are `Nat`/`Int` with explicit wrap-around,
Go's `nil` is `Option.none`, and the code that `Run` calls but that lives in other files
of the repository (the interpreter `Runtime.Run`, `InitPlayground`, `ErrorText`, the
checksums and the well-known constant identifiers) is collected in the record `Env`.

`Run` is a function of the environment, the image, the settings and the process handles
`os.Stdin`, `os.Stdout`, `os.Stderr`; it yields the two returned values, the `return`
statement taken, the handles left behind, the VM it built and the log of the calls it
made.  The goroutines of lines 217-248 and the channel operations of lines 250-252 and
270-273 are not part of the sequential model: what the drain loop of lines 256-265
receives from `vm.ChError` is given by the environment as a finite list.
-/

namespace Gentee

/-! ## core/bytecode.go -/

namespace core

def TYPENONE : Nat := 0
def TYPEINT : Nat := 0x011
def TYPEBOOL : Nat := 0x021
def TYPECHAR : Nat := 0x031
def TYPESTR : Nat := 0x042
def TYPEFLOAT : Nat := 0x053
def TYPEARR : Nat := 0x014
def TYPERANGE : Nat := 0x024
def TYPEMAP : Nat := 0x034
def TYPEBUF : Nat := 0x044
def TYPEFUNC : Nat := 0x054
def TYPEERROR : Nat := 0x064
def TYPESET : Nat := 0x074
def TYPEOBJ : Nat := 0x084
def TYPESTRUCT : Nat := 0x104

/-- Go struct `core.CodePos`. -/
structure CodePos where
  Offset : Int
  Path : Nat
  Name : Nat
  Line : Nat
  Column : Nat
  deriving DecidableEq, Repr

/-- Go struct `core.StructInfo`. -/
structure StructInfo where
  Name : String
  Fields : List Nat
  Keys : List String
  deriving DecidableEq, Repr

/-- Go struct `core.Exec`, the executable image.  `Funcs` is a Go map: a missing key is
`none` and reads as the zero value. -/
structure Exec where
  Code : List Int
  Funcs : Int → Option Int
  Init : List Int
  Strings : List String
  Structs : List StructInfo
  Pos : List CodePos
  Path : String
  CRCStdlib : Nat
  CRCCustom : Nat

end core

/-! ## vm/vm.go: data -/

/-- CYCLE is the limit of loops (`uint64(16000000)`). -/
def CYCLE : Nat := 16000000

/-- DEPTH is the maximum size of blocks stack (`uint32(1000)`). -/
def DEPTH : Nat := 1000

/-- Identity of an `*os.File`; a nil pointer is `none` of `Option File`. -/
abbrev File := Nat

/-- Go struct `vm.Settings`.  `Cycle` is a `uint64`, `Depth` a `uint32`; channels, the
playground descriptor and the progress callback are kept as identities. -/
structure Settings where
  CmdLine : List String
  Stdin : Option File
  Stdout : Option File
  Stderr : Option File
  Input : List Nat
  Cycle : Nat
  Depth : Nat
  SysChan : Option Nat
  IsPlayground : Bool
  Playground : Nat
  ProgressHandle : Option Nat
  deriving DecidableEq, Repr

/-- Dynamic values an `interface{}` can hold here (`nil` is `none` of `Option Value`).
A `float64` is kept as its bit pattern, `int` is Go's platform integer, `uint8` a byte. -/
inductive Value
  | int64 (v : Int)
  | float64 (bits : Nat)
  | bool (b : Bool)
  | rune (c : Int)
  | string (s : String)
  | int (v : Int)
  | uint8 (b : Nat)
  | other (descr : String)
  deriving DecidableEq, Repr

/-- Go struct `vm.Const`; the field `Type` is written `Typ`. -/
structure Const where
  Typ : Nat
  Value : Option Value
  deriving DecidableEq, Repr

/-- The part of `*vm.RuntimeError` that `Run` reads. -/
structure RuntimeError where
  ID : Int
  Message : String
  deriving DecidableEq, Repr

/-- Values of Go's `error` interface met by `Run`: the result of `fmt.Errorf(text)`, a
`*RuntimeError`, or any other implementation. -/
inductive GoError
  | errorf (text : String)
  | runtime (e : RuntimeError)
  | other (descr : String)
  deriving DecidableEq, Repr

/-- Error identifiers of package `vm` that `Run` passes to `ErrorText`. -/
inductive ErrID
  | ErrNotRun
  | ErrCRC
  | ErrExit
  | ErrTerminated
  deriving DecidableEq, Repr

/-- The map `vm.Consts` (`map[int32]Const`). -/
abbrev ConstTable := Int → Option Const

/-- Assignment `m[id] = c` on a Go map. -/
def ConstTable.set (m : ConstTable) (id : Int) (c : Const) : ConstTable :=
  fun j => if j = id then some c else m j

/-- The fields of Go struct `vm.VM` that `Run` reads or writes outside its goroutines. -/
structure VM where
  Settings : Settings
  Exec : core.Exec
  Consts : ConstTable

/-- The process-wide variables `os.Stdin`, `os.Stdout`, `os.Stderr`. -/
structure StdHandles where
  Stdin : Option File
  Stdout : Option File
  Stderr : Option File
  deriving DecidableEq, Repr

/-- Calls that `Run` makes into code outside `vm.go`, in program order.  `runConsts`
records the init element, the offset handed to `vm.runConsts` and the error it gave. -/
inductive Event
  | InitPlayground
  | runConsts (id : Int) (offset : Int) (err : Option GoError)
  | rootRun
  | closeAll
  | DeinitPlayground
  deriving DecidableEq, Repr

/-- The `return` statement of `Run` that was taken (line of `vm.go`). -/
inductive ReturnSite
  | notRun
  | crc
  | playground
  | constInit
  | done
  deriving DecidableEq, Repr

/-- Code and environment outside `vm.go` that `Run` depends on.
`CRCStdlib`, `CRCCustom`: the host checksums (generated file of package `vm`).
`ConstDepthID`, `ConstCycleID`, `ConstScriptID`: the well-known slots of package `core`.
`ErrorText`: message of an error identifier.
`InitPlayground`: receives `&settings`, gives the updated settings and an error.
`RuntimeRun`: `(*Runtime).Run(offset)` of a fresh runtime owned by the given VM; it does
not assign `vm.Consts` or the process handles.
`ChError`: the values received from `vm.ChError` by the loop `for vm.Count > 0`. -/
structure Env where
  CRCStdlib : Nat
  CRCCustom : Nat
  ConstDepthID : Int
  ConstCycleID : Int
  ConstScriptID : Int
  ErrorText : ErrID → String
  InitPlayground : Settings → Settings × Option GoError
  RuntimeRun : VM → Int → Option Value × Option GoError
  ChError : List (Option GoError)

/-- What a call of `Run` leaves behind: the return statement taken, the two returned
values, the process handles, the VM it built (`none` when it returned before building
one; its `Consts` are the table the root context is started with) and the calls made. -/
structure RunOut where
  ret : ReturnSite
  result : Option Value
  err : Option GoError
  os : StdHandles
  vm : Option VM
  trace : List Event

/-! ## vm/vm.go: `Run` -/

/-- Conversion `int32(x)` of a mathematical integer: wrap into `[-2^31, 2^31)`. -/
def wrapInt32 (x : Int) : Int := (x + 2147483648) % 4294967296 - 2147483648

/-- Conversion `int64(x)` of an unsigned 64-bit (or 32-bit) value. -/
def toInt64 (x : Nat) : Int :=
  if x % 18446744073709551616 < 9223372036854775808 then (x % 18446744073709551616 : Nat)
  else ((x % 18446744073709551616 : Nat) : Int) - 18446744073709551616

/-- The guard of line 125. -/
def crcMismatch (h : Env) (exec : core.Exec) : Bool :=
  exec.CRCStdlib != h.CRCStdlib || (exec.CRCCustom != 0 && exec.CRCCustom != h.CRCCustom)

/-- Lines 146-151: defaults of the cycle and depth caps. -/
def applyDefaults (s : Settings) : Settings :=
  let s1 := if s.Cycle = 0 then { s with Cycle := CYCLE } else s
  if s1.Depth = 0 then { s1 with Depth := DEPTH } else s1

/-- Lines 152-166: the saved handles `pStdin, pStdout, pStderr`. -/
def savedHandles (s : Settings) (os : StdHandles) : StdHandles :=
  { Stdin := if s.Stdin.isSome then os.Stdin else none
    Stdout := if s.Stdout.isSome then os.Stdout else none
    Stderr := if s.Stderr.isSome then os.Stderr else none }

/-- Lines 155-166: the process handles after the overrides are installed. -/
def installHandles (s : Settings) (os : StdHandles) : StdHandles :=
  { Stdin := if s.Stdin.isSome then s.Stdin else os.Stdin
    Stdout := if s.Stdout.isSome then s.Stdout else os.Stdout
    Stderr := if s.Stderr.isSome then s.Stderr else os.Stderr }

/-- Lines 274-282: a saved handle is put back when it is not nil. -/
def restoreHandles (saved : StdHandles) (os : StdHandles) : StdHandles :=
  { Stdin := if saved.Stdin.isSome then saved.Stdin else os.Stdin
    Stdout := if saved.Stdout.isSome then saved.Stdout else os.Stdout
    Stderr := if saved.Stderr.isSome then saved.Stderr else os.Stderr }

/-- Lines 192-213: the type switch on the value an initializer returned. -/
def constOfValue (val : Option Value) : Const :=
  match val with
  | some (Value.int64 v) => { Typ := core.TYPEINT, Value := some (Value.int64 v) }
  | some (Value.float64 f) => { Typ := core.TYPEFLOAT, Value := some (Value.float64 f) }
  | some (Value.bool v) =>
    { Typ := core.TYPEBOOL, Value := if v then some (Value.int64 1) else some (Value.int64 0) }
  | some (Value.rune v) => { Typ := core.TYPECHAR, Value := some (Value.int64 v) }
  | some (Value.string s) => { Typ := core.TYPESTR, Value := some (Value.string s) }
  | other => { Typ := 0, Value := other }

/-- State of the loop of lines 170-214. -/
structure InitState where
  iotaShift : Int
  vm : VM
  trace : List Event

/-- Body of the loop `for i, id := range vm.Exec.Init` (lines 172-213).  The first
component is the error with which `Run` returns from inside the body, if any. -/
def initElem (h : Env) (i : Nat) (id : Int) (st : InitState) : Option GoError × InitState :=
  if i = 0 then
    (none, { st with
      iotaShift := id
      vm := { st.vm with Consts := st.vm.Consts.set id ⟨core.TYPEINT, some (Value.int64 0)⟩ } })
  else
    let k := wrapInt32 (id - st.iotaShift)
    if k = h.ConstDepthID then
      (none, { st with vm := { st.vm with
        Consts := st.vm.Consts.set id ⟨core.TYPEINT, some (Value.int64 (toInt64 st.vm.Settings.Depth))⟩ } })
    else if k = h.ConstCycleID then
      (none, { st with vm := { st.vm with
        Consts := st.vm.Consts.set id ⟨core.TYPEINT, some (Value.int64 (toInt64 st.vm.Settings.Cycle))⟩ } })
    else if k = h.ConstScriptID then
      (none, { st with vm := { st.vm with
        Consts := st.vm.Consts.set id ⟨core.TYPESTR, some (Value.string st.vm.Exec.Path)⟩ } })
    else
      let offset := (st.vm.Exec.Funcs id).getD 0
      let r := h.RuntimeRun st.vm offset
      match r.2 with
      | some err => (some err, { st with trace := st.trace ++ [Event.runConsts id offset (some err)] })
      | none =>
        (none, { st with
          vm := { st.vm with Consts := st.vm.Consts.set id (constOfValue r.1) }
          trace := st.trace ++ [Event.runConsts id offset none] })

/-- The loop of lines 171-214 over the remaining init elements, `i` being the index of
the next one. -/
def initLoop (h : Env) : Nat → List Int → InitState → Option GoError × InitState
  | _, [], st => (none, st)
  | i, id :: rest, st =>
    match initElem h i id st with
    | (some err, st1) => (some err, st1)
    | (none, st1) => initLoop h (i + 1) rest st1

/-- Lines 256-265: the loop that drains `vm.ChError`, over the values it receives. -/
def drain : Option GoError → List (Option GoError) → Option GoError
  | errResult, [] => errResult
  | errResult, err :: rest =>
    drain (match errResult with
      | none => err
      | some e => some e) rest

/-- Lines 266-269: an explicit exit becomes the result. -/
def unwrapExit (h : Env) (result : Option Value) (errResult : Option GoError) :
    Option Value × Option GoError :=
  match errResult with
  | some (GoError.runtime e) =>
    if e.Message = h.ErrorText ErrID.ErrExit then (some (Value.int e.ID), none)
    else (result, errResult)
  | _ => (result, errResult)

/-- Lines 128-132: the settings after the optional `InitPlayground(&settings)`. -/
def playgroundInit (h : Env) (settings : Settings) : Settings × Option GoError × List Event :=
  if settings.IsPlayground then
    ((h.InitPlayground settings).1, (h.InitPlayground settings).2, [Event.InitPlayground])
  else (settings, none, [])

/-- Lines 133-151: the VM as built, with the defaults applied to its own settings. -/
def newVM (exec : core.Exec) (settings : Settings) : VM :=
  { Settings := applyDefaults settings, Exec := exec, Consts := fun _ => none }

/-- Lines 216-286: from the start of the root context to the final `return`. -/
def runRoot (h : Env) (vm : VM) (saved os : StdHandles) (trace : List Event) : RunOut :=
  let r := h.RuntimeRun vm 0
  let tr1 := trace ++ [Event.rootRun] ++ (if r.2.isSome then [Event.closeAll] else [])
  let errResult := drain r.2 h.ChError
  let tr2 := tr1 ++ h.ChError.map (fun _ => Event.closeAll)
  let fin := unwrapExit h r.1 errResult
  { ret := ReturnSite.done
    result := fin.1
    err := fin.2
    os := restoreHandles saved os
    vm := some vm
    trace := tr2 ++ (if vm.Settings.IsPlayground then [Event.DeinitPlayground] else []) }

/-- The function `vm.Run(exec, settings)`, started with process handles `os`. -/
def Run (h : Env) (exec : Option core.Exec) (settings : Settings) (os : StdHandles) : RunOut :=
  match exec with
  | none =>
    { ret := ReturnSite.notRun, result := none
      err := some (GoError.errorf (h.ErrorText ErrID.ErrNotRun))
      os := os, vm := none, trace := [] }
  | some exec =>
    if crcMismatch h exec then
      { ret := ReturnSite.crc, result := none
        err := some (GoError.errorf (h.ErrorText ErrID.ErrCRC))
        os := os, vm := none, trace := [] }
    else
      match playgroundInit h settings with
      | (_, some err, tr) =>
        { ret := ReturnSite.playground, result := none, err := some err
          os := os, vm := none, trace := tr }
      | (settings1, none, tr) =>
        let vm := newVM exec settings1
        let saved := savedHandles vm.Settings os
        let os1 := installHandles vm.Settings os
        match initLoop h 0 vm.Exec.Init ⟨0, vm, tr⟩ with
        | (some err, st) =>
          { ret := ReturnSite.constInit, result := none, err := some err
            os := os1, vm := some st.vm, trace := st.trace }
        | (none, st) => runRoot h st.vm saved os1 st.trace

/-- Whether `k` selects one of the three `case` branches of the switch of line 177. -/
def isSlot (h : Env) (k : Int) : Bool :=
  k == h.ConstDepthID || k == h.ConstCycleID || k == h.ConstScriptID

/-- The constant stored by the `case` branch that the switch of line 177 takes for a
well-known slot `k` (the branches are tried in source order). -/
def slotConst (h : Env) (vm : VM) (k : Int) : Const :=
  if k = h.ConstDepthID then ⟨core.TYPEINT, some (Value.int64 (toInt64 vm.Settings.Depth))⟩
  else if k = h.ConstCycleID then ⟨core.TYPEINT, some (Value.int64 (toInt64 vm.Settings.Cycle))⟩
  else ⟨core.TYPESTR, some (Value.string vm.Exec.Path)⟩

/-- The offset `int64(vm.Exec.Funcs[id])` handed to `vm.runConsts`. -/
def initOffset (vm : VM) (id : Int) : Int := (vm.Exec.Funcs id).getD 0

/-! ## core/bytecode.go: stack selectors and opcodes -/

namespace core

/-! The `const ( STACKNONE = iota ... )` block. -/

def STACKNONE : Nat := 0
def STACKINT : Nat := STACKNONE + 1
def STACKSTR : Nat := STACKINT + 1
def STACKFLOAT : Nat := STACKSTR + 1
def STACKANY : Nat := STACKFLOAT + 1

/-- The type tags of `core/bytecode.go` in source order. -/
def typeTags : List Nat :=
  [TYPENONE, TYPEINT, TYPEBOOL, TYPECHAR, TYPESTR, TYPEFLOAT, TYPEARR, TYPERANGE, TYPEMAP,
    TYPEBUF, TYPEFUNC, TYPEERROR, TYPESET, TYPEOBJ, TYPESTRUCT]

/-! The `const ( NOP = iota ... )` block: every opcode is its predecessor plus one. -/

def NOP : Nat := 0
def PUSH32 : Nat := NOP + 1
def PUSH64 : Nat := PUSH32 + 1
def PUSHFLOAT : Nat := PUSH64 + 1
def PUSHSTR : Nat := PUSHFLOAT + 1
def PUSHFUNC : Nat := PUSHSTR + 1
def ADD : Nat := PUSHFUNC + 1
def SUB : Nat := ADD + 1
def MUL : Nat := SUB + 1
def DIV : Nat := MUL + 1
def MOD : Nat := DIV + 1
def BITOR : Nat := MOD + 1
def BITXOR : Nat := BITOR + 1
def BITAND : Nat := BITXOR + 1
def LSHIFT : Nat := BITAND + 1
def RSHIFT : Nat := LSHIFT + 1
def BITNOT : Nat := RSHIFT + 1
def SIGN : Nat := BITNOT + 1
def EQ : Nat := SIGN + 1
def LT : Nat := EQ + 1
def GT : Nat := LT + 1
def NOT : Nat := GT + 1
def ADDFLOAT : Nat := NOT + 1
def SUBFLOAT : Nat := ADDFLOAT + 1
def MULFLOAT : Nat := SUBFLOAT + 1
def DIVFLOAT : Nat := MULFLOAT + 1
def SIGNFLOAT : Nat := DIVFLOAT + 1
def EQFLOAT : Nat := SIGNFLOAT + 1
def LTFLOAT : Nat := EQFLOAT + 1
def GTFLOAT : Nat := LTFLOAT + 1
def ADDSTR : Nat := GTFLOAT + 1
def EQSTR : Nat := ADDSTR + 1
def LTSTR : Nat := EQSTR + 1
def GTSTR : Nat := LTSTR + 1
def GETVAR : Nat := GTSTR + 1
def SETVAR : Nat := GETVAR + 1
def DUP : Nat := SETVAR + 1
def POP : Nat := DUP + 1
def CYCLE : Nat := POP + 1
def JMP : Nat := CYCLE + 1
def JZE : Nat := JMP + 1
def JNZ : Nat := JZE + 1
def JEQ : Nat := JNZ + 1
def JMPOPT : Nat := JEQ + 1
def INITVARS : Nat := JMPOPT + 1
def DELVARS : Nat := INITVARS + 1
def OPTPARS : Nat := DELVARS + 1
def INITOBJ : Nat := OPTPARS + 1
def RANGE : Nat := INITOBJ + 1
def ARRAY : Nat := RANGE + 1
def LEN : Nat := ARRAY + 1
def FORINC : Nat := LEN + 1
def BREAK : Nat := FORINC + 1
def CONTINUE : Nat := BREAK + 1
def RECOVER : Nat := CONTINUE + 1
def RETRY : Nat := RECOVER + 1
def RET : Nat := RETRY + 1
def END : Nat := RET + 1
def CONSTBYID : Nat := END + 1
def CALLBYID : Nat := CONSTBYID + 1
def GOBYID : Nat := CALLBYID + 1
def EMBED : Nat := GOBYID + 1
def LOCAL : Nat := EMBED + 1
def CATCH : Nat := LOCAL + 1
def IOTA : Nat := CATCH + 1
def INDEX : Nat := IOTA + 1
def ASSIGNPTR : Nat := INDEX + 1
def ASSIGN : Nat := ASSIGNPTR + 1
def ASSIGNADD : Nat := ASSIGN + 1
def ASSIGNSUB : Nat := ASSIGNADD + 1
def ASSIGNMUL : Nat := ASSIGNSUB + 1
def ASSIGNDIV : Nat := ASSIGNMUL + 1
def ASSIGNMOD : Nat := ASSIGNDIV + 1
def ASSIGNBITOR : Nat := ASSIGNMOD + 1
def ASSIGNBITXOR : Nat := ASSIGNBITOR + 1
def ASSIGNBITAND : Nat := ASSIGNBITXOR + 1
def ASSIGNLSHIFT : Nat := ASSIGNBITAND + 1
def ASSIGNRSHIFT : Nat := ASSIGNLSHIFT + 1
def INCDEC : Nat := ASSIGNRSHIFT + 1
def EMBEDFUNC : Nat := INCDEC + 1

/-- Error identifiers of package `core` that `stdlib/int.go` passes to `core.ErrorText`. -/
inductive ErrID
  | ErrDivZero
  | ErrShift
  | ErrByteOut
  deriving DecidableEq, Repr

end core

/-! ## stdlib/int.go -/

namespace stdlib

/-- Conversion `int64(x)` of a mathematical integer: wrap into `[-2^63, 2^63)`. -/
def wrapInt64 (x : Int) : Int :=
  (x + 9223372036854775808) % 18446744073709551616 - 9223372036854775808

/-- Conversion `uint64(x)` of a signed 64-bit value. -/
def toUint64 (x : Int) : Nat := (x % 18446744073709551616).toNat

/-- Go `x + y` on `int64`. -/
def add64 (x y : Int) : Int := wrapInt64 (x + y)

/-- Go `x - y` on `int64`. -/
def sub64 (x y : Int) : Int := wrapInt64 (x - y)

/-- Go `x * y` on `int64`. -/
def mul64 (x y : Int) : Int := wrapInt64 (x * y)

/-- Go `x / y` on `int64` for `y != 0`: the quotient truncated toward zero, wrapped. -/
def div64 (x y : Int) : Int := wrapInt64 (Int.tdiv x y)

/-- Go `x % y` on `int64` for `y != 0`: the remainder of the truncated division. -/
def mod64 (x y : Int) : Int := Int.tmod x y

/-- Go `x & y` on `int64`: bitwise on the two's-complement representations. -/
def and64 (x y : Int) : Int := toInt64 (toUint64 x &&& toUint64 y)

/-- Go `x | y` on `int64`. -/
def or64 (x y : Int) : Int := toInt64 (toUint64 x ||| toUint64 y)

/-- Go `x ^ y` on `int64`. -/
def xor64 (x y : Int) : Int := toInt64 (toUint64 x ^^^ toUint64 y)

/-- Go `x << n` on `int64` for an unsigned count: the operand shifted `n` times by one. -/
def shl64 : Int → Nat → Int
  | x, 0 => x
  | x, n + 1 => wrapInt64 (shl64 x n * 2)

/-- Go `x >> n` on `int64` for an unsigned count: the operand shifted `n` times by one,
each time halved and rounded toward negative infinity. -/
def shr64 : Int → Nat → Int
  | x, 0 => x
  | x, n + 1 => Int.fdiv (shr64 x n) 2

/-- What a call `f(ptr, value)` with results `(int64, error)` leaves: the content of
`*ptr` afterwards and the two returned values. -/
structure AssignResult where
  ptr : Value
  ret : Int
  err : Option GoError
  deriving DecidableEq, Repr

/-! The functions take the content of `*ptr`; `none` is the run-time panic of a failed
type assertion `(*ptr).(int64)`.  `errorText` stands for `core.ErrorText`. -/

/-- Go `AssignºIntInt`: assign one integer to another. -/
def AssignIntInt (_ptr : Value) (value : Int) : Option (Value × Int) :=
  some (Value.int64 value, value)

/-- Go `AssignºIntChar`: assign a rune to integer. -/
def AssignIntChar (_ptr : Value) (value : Int) : Option (Value × Int) :=
  some (Value.int64 value, value)

/-- Go `AssignAddºIntInt`: adds one integer to another. -/
def AssignAddIntInt (errorText : core.ErrID → String) (ptr : Value) (value : Int) :
    Option AssignResult :=
  match ptr with
  | Value.uint8 v =>
    let value1 := add64 value (v : Int)
    if toUint64 value1 > 255 then
      some ⟨ptr, 0, some (GoError.errorf (errorText core.ErrID.ErrByteOut))⟩
    else some ⟨Value.int64 value1, value1, none⟩
  | Value.int64 v => some ⟨Value.int64 (add64 v value), add64 v value, none⟩
  | _ => none

/-- Go `AssignBitAndºIntInt`: equals int &= int. -/
def AssignBitAndIntInt (ptr : Value) (value : Int) : Option (Value × Int) :=
  match ptr with
  | Value.int64 x => some (Value.int64 (and64 x value), and64 x value)
  | _ => none

/-- Go `AssignBitOrºIntInt`: equals int |= int. -/
def AssignBitOrIntInt (ptr : Value) (value : Int) : Option (Value × Int) :=
  match ptr with
  | Value.int64 x => some (Value.int64 (or64 x value), or64 x value)
  | _ => none

/-- Go `AssignBitXorºIntInt`: equals int ^= int. -/
def AssignBitXorIntInt (ptr : Value) (value : Int) : Option (Value × Int) :=
  match ptr with
  | Value.int64 x => some (Value.int64 (xor64 x value), xor64 x value)
  | _ => none

/-- Go `AssignDivºIntInt`: does int /= int. -/
def AssignDivIntInt (errorText : core.ErrID → String) (ptr : Value) (value : Int) :
    Option AssignResult :=
  if value = 0 then some ⟨ptr, 0, some (GoError.errorf (errorText core.ErrID.ErrDivZero))⟩
  else
    match ptr with
    | Value.int64 x => some ⟨Value.int64 (div64 x value), div64 x value, none⟩
    | _ => none

/-- Go `AssignModºIntInt`: equals int %= int. -/
def AssignModIntInt (errorText : core.ErrID → String) (ptr : Value) (value : Int) :
    Option AssignResult :=
  if value = 0 then some ⟨ptr, 0, some (GoError.errorf (errorText core.ErrID.ErrDivZero))⟩
  else
    match ptr with
    | Value.int64 x => some ⟨Value.int64 (mod64 x value), mod64 x value, none⟩
    | _ => none

/-- Go `AssignMulºIntInt`: equals int *= int. -/
def AssignMulIntInt (ptr : Value) (value : Int) : Option (Value × Int) :=
  match ptr with
  | Value.int64 x => some (Value.int64 (mul64 x value), mul64 x value)
  | _ => none

/-- Go `AssignSubºIntInt`. -/
def AssignSubIntInt (ptr : Value) (value : Int) : Option (Value × Int) :=
  match ptr with
  | Value.int64 x => some (Value.int64 (sub64 x value), sub64 x value)
  | _ => none

/-- Go `AssignLShiftºIntInt`: does int <<= int. -/
def AssignLShiftIntInt (errorText : core.ErrID → String) (ptr : Value) (value : Int) :
    Option AssignResult :=
  if value < 0 then some ⟨ptr, 0, some (GoError.errorf (errorText core.ErrID.ErrShift))⟩
  else
    match ptr with
    | Value.int64 x =>
      some ⟨Value.int64 (shl64 x (toUint64 value)), shl64 x (toUint64 value), none⟩
    | _ => none

/-- Go `AssignRShiftºIntInt`: does int >>= int. -/
def AssignRShiftIntInt (errorText : core.ErrID → String) (ptr : Value) (value : Int) :
    Option AssignResult :=
  if value < 0 then some ⟨ptr, 0, some (GoError.errorf (errorText core.ErrID.ErrShift))⟩
  else
    match ptr with
    | Value.int64 x =>
      some ⟨Value.int64 (shr64 x (toUint64 value)), shr64 x (toUint64 value), none⟩
    | _ => none

/-- Go `MaxºIntInt`: returns the maximum of two integers. -/
def MaxIntInt (left right : Int) : Int :=
  if left < right then right else left

/-- Go `MinºIntInt`: returns the minimum of two integers. -/
def MinIntInt (left right : Int) : Int :=
  if left > right then right else left

/-- The Go functions that `InitInt` registers, in source order. -/
inductive IntFunc
  | floatInt
  | strInt
  | boolInt
  | ExpStrInt
  | AssignIntInt
  | AssignIntChar
  | AssignAddIntInt
  | AssignBitAndIntInt
  | AssignBitOrIntInt
  | AssignBitXorIntInt
  | AssignDivIntInt
  | AssignModIntInt
  | AssignMulIntInt
  | AssignSubIntInt
  | AssignLShiftIntInt
  | AssignRShiftIntInt
  | MaxIntInt
  | MinIntInt
  deriving DecidableEq, Repr

/-- The `core.Link` items of `InitInt`: function and link code, in source order. -/
def InitInt : List (IntFunc × Nat) :=
  [ (IntFunc.floatInt, 19 <<< 16 ||| core.EMBED),
    (IntFunc.strInt, 1 <<< 16 ||| core.EMBED),
    (IntFunc.boolInt, 3 <<< 16 ||| core.EMBED),
    (IntFunc.ExpStrInt, 4 <<< 16 ||| core.EMBED),
    (IntFunc.AssignIntInt, core.ASSIGN),
    (IntFunc.AssignIntChar, core.ASSIGN),
    (IntFunc.AssignAddIntInt, core.ASSIGN + 1),
    (IntFunc.AssignBitAndIntInt, core.ASSIGN + 6),
    (IntFunc.AssignBitOrIntInt, core.ASSIGN + 7),
    (IntFunc.AssignBitXorIntInt, core.ASSIGN + 8),
    (IntFunc.AssignDivIntInt, core.ASSIGN + 4),
    (IntFunc.AssignModIntInt, core.ASSIGN + 5),
    (IntFunc.AssignMulIntInt, core.ASSIGN + 3),
    (IntFunc.AssignSubIntInt, core.ASSIGN + 2),
    (IntFunc.AssignLShiftIntInt, core.ASSIGN + 9),
    (IntFunc.AssignRShiftIntInt, core.ASSIGN + 10),
    (IntFunc.MaxIntInt, 37 <<< 16 ||| core.EMBED),
    (IntFunc.MinIntInt, 38 <<< 16 ||| core.EMBED) ]

/-- The link code registered for a function. -/
def linkCode (f : IntFunc) : Option Nat := InitInt.lookup f

/-- The operators `+ - * / % & | ^ << >>` of the integer compound assignments. -/
inductive IntOp
  | add
  | sub
  | mul
  | div
  | mod
  | bitAnd
  | bitOr
  | bitXor
  | lshift
  | rshift
  deriving DecidableEq, Repr

/-- The compound-assignment function of an operator, the functions that return only an
`int64` being given a nil error. -/
def assignFunc (errorText : core.ErrID → String) (op : IntOp) (ptr : Value) (value : Int) :
    Option AssignResult :=
  match op with
  | IntOp.add => AssignAddIntInt errorText ptr value
  | IntOp.sub => (AssignSubIntInt ptr value).map (fun r => ⟨r.1, r.2, none⟩)
  | IntOp.mul => (AssignMulIntInt ptr value).map (fun r => ⟨r.1, r.2, none⟩)
  | IntOp.div => AssignDivIntInt errorText ptr value
  | IntOp.mod => AssignModIntInt errorText ptr value
  | IntOp.bitAnd => (AssignBitAndIntInt ptr value).map (fun r => ⟨r.1, r.2, none⟩)
  | IntOp.bitOr => (AssignBitOrIntInt ptr value).map (fun r => ⟨r.1, r.2, none⟩)
  | IntOp.bitXor => (AssignBitXorIntInt ptr value).map (fun r => ⟨r.1, r.2, none⟩)
  | IntOp.lshift => AssignLShiftIntInt errorText ptr value
  | IntOp.rshift => AssignRShiftIntInt errorText ptr value

/-- Reference semantics, in the words of the specification: the expression `x OP v` on
64-bit integers, where division and modulo by zero fail with the division-by-zero error
and a left or right shift by a negative amount fails with the shift-range error. -/
def specIntOp (op : IntOp) (x v : Int) : Except core.ErrID Int :=
  match op with
  | IntOp.add => Except.ok (add64 x v)
  | IntOp.sub => Except.ok (sub64 x v)
  | IntOp.mul => Except.ok (mul64 x v)
  | IntOp.div => if v = 0 then Except.error core.ErrID.ErrDivZero else Except.ok (div64 x v)
  | IntOp.mod => if v = 0 then Except.error core.ErrID.ErrDivZero else Except.ok (mod64 x v)
  | IntOp.bitAnd => Except.ok (and64 x v)
  | IntOp.bitOr => Except.ok (or64 x v)
  | IntOp.bitXor => Except.ok (xor64 x v)
  | IntOp.lshift =>
    if v < 0 then Except.error core.ErrID.ErrShift else Except.ok (shl64 x (toUint64 v))
  | IntOp.rshift =>
    if v < 0 then Except.error core.ErrID.ErrShift else Except.ok (shr64 x (toUint64 v))

/-- Reference semantics, in the words of the specification: the two-step `x = x OP v` on
a target holding `x`.  When `x OP v` fails the assignment does not happen and the error
is surfaced; otherwise the target holds the value, which is also the value of the step. -/
def specTwoStep (errorText : core.ErrID → String) (op : IntOp) (x v : Int) : AssignResult :=
  match specIntOp op x v with
  | Except.error k => ⟨Value.int64 x, 0, some (GoError.errorf (errorText k))⟩
  | Except.ok r => ⟨Value.int64 r, r, none⟩

/-- An error text for each identifier of `core`, for test inputs. -/
def errorTextExample : core.ErrID → String
  | core.ErrID.ErrDivZero => "divided by zero"
  | core.ErrID.ErrShift => "shift out of range"
  | core.ErrID.ErrByteOut => "byte out of range"

end stdlib

/-! ## Constants and storage stacks -/

/-- Whether a value returned by an initializer is one of the five kinds the type switch
of lines 193-212 names: `int64`, `float64`, `bool`, `rune` or `string`. -/
def isConstKind (val : Option Value) : Bool :=
  match val with
  | some (Value.int64 _) => true
  | some (Value.float64 _) => true
  | some (Value.bool _) => true
  | some (Value.rune _) => true
  | some (Value.string _) => true
  | _ => false

/-- Whether the value of a constant is of the kind kept on the storage stack that the low
nibble of its tag selects: an `int64` with `STACKINT`, a string with `STACKSTR`, a
`float64` with `STACKFLOAT`; nothing else is accepted. -/
def Const.stackConsistent (c : Const) : Bool :=
  match c.Value with
  | some (Value.int64 _) => c.Typ &&& 0xF == core.STACKINT
  | some (Value.string _) => c.Typ &&& 0xF == core.STACKSTR
  | some (Value.float64 _) => c.Typ &&& 0xF == core.STACKFLOAT
  | _ => false

/-! ## Concrete environments and images used as test inputs -/

/-- An environment with checksums `11` and `22`, slots `1, 2, 3`, in which every
runtime returns nil and no error. -/
def envQuiet : Env :=
  { CRCStdlib := 11, CRCCustom := 22
    ConstDepthID := 1, ConstCycleID := 2, ConstScriptID := 3
    ErrorText := fun e =>
      match e with
      | ErrID.ErrNotRun => "not run"
      | ErrID.ErrCRC => "crc"
      | ErrID.ErrExit => "exit"
      | ErrID.ErrTerminated => "terminated"
    InitPlayground := fun s => (s, none)
    RuntimeRun := fun _ _ => (none, none)
    ChError := [] }

/-- As `envQuiet`, but every runtime fails with a runtime error. -/
def envFailing : Env :=
  { envQuiet with
    RuntimeRun := fun _ _ => (none, some (GoError.runtime ⟨5, "divide by zero"⟩)) }

/-- As `envQuiet`, but every runtime returns the string `"x"`. -/
def envStr : Env :=
  { envQuiet with RuntimeRun := fun _ _ => (some (Value.string "x"), none) }

/-- As `envQuiet`, but every runtime ends with the explicit-exit runtime error, ID 3. -/
def envExit : Env :=
  { envQuiet with RuntimeRun := fun _ _ => (none, some (GoError.runtime ⟨3, "exit"⟩)) }

/-- An image with the given init sequence and checksums, and nothing else. -/
def execOf (init : List Int) (crcStdlib crcCustom : Nat) : core.Exec :=
  { Code := [], Funcs := fun _ => none, Init := init, Strings := [], Structs := []
    Pos := [], Path := "script.g", CRCStdlib := crcStdlib, CRCCustom := crcCustom }

/-- Settings with every field zero. -/
def settingsZero : Settings :=
  { CmdLine := [], Stdin := none, Stdout := none, Stderr := none, Input := []
    Cycle := 0, Depth := 0, SysChan := none, IsPlayground := false, Playground := 0
    ProgressHandle := none }

/-- Process handles `0, 1, 2`. -/
def osDefault : StdHandles := { Stdin := some 0, Stdout := some 1, Stderr := some 2 }

/-- As `envQuiet`, but a runtime started at offset 10 returns the integer 7; at every
other offset, the root context's offset 0 included, it returns nil. -/
def envInitInt : Env :=
  { envQuiet with
    RuntimeRun := fun _ off => if off = 10 then (some (Value.int64 7), none) else (none, none) }

/-- An image with init sequence `[0, 100]` whose function table maps 100 to offset 10. -/
def execInit100 : core.Exec :=
  { execOf [0, 100] 11 22 with Funcs := fun id => if id = 100 then some 10 else none }

/-! ## Helper lemmas on the init loop -/

theorem crcMismatch_iff (h : Env) (exec : core.Exec) :
    crcMismatch h exec = true ↔
      (exec.CRCStdlib ≠ h.CRCStdlib ∨ (exec.CRCCustom ≠ 0 ∧ exec.CRCCustom ≠ h.CRCCustom)) := by
  simp [crcMismatch]

theorem initElem_frame (h : Env) (i : Nat) (id : Int) (st : InitState) :
    (initElem h i id st).2.vm.Settings = st.vm.Settings ∧
      (initElem h i id st).2.vm.Exec = st.vm.Exec := by
  unfold initElem
  dsimp only
  split_ifs
  all_goals first
    | exact ⟨rfl, rfl⟩
    | (split <;> exact ⟨rfl, rfl⟩)

theorem initLoop_frame (h : Env) (ids : List Int) :
    ∀ (i : Nat) (st : InitState),
      (initLoop h i ids st).2.vm.Settings = st.vm.Settings ∧
        (initLoop h i ids st).2.vm.Exec = st.vm.Exec := by
  induction ids with
  | nil => intro i st; exact ⟨rfl, rfl⟩
  | cons id rest ih =>
    intro i st
    have hf := initElem_frame h i id st
    unfold initLoop
    split
    · next err st1 heq =>
      rw [heq] at hf
      exact hf
    · next st1 heq =>
      rw [heq] at hf
      have := ih (i + 1) st1
      exact ⟨this.1.trans hf.1, this.2.trans hf.2⟩

theorem initElem_zero (h : Env) (id : Int) (st : InitState) :
    initElem h 0 id st = (none, { st with
      iotaShift := id
      vm := { st.vm with
        Consts := st.vm.Consts.set id ⟨core.TYPEINT, some (Value.int64 0)⟩ } }) := by
  simp [initElem]

theorem initElem_slot (h : Env) (i : Nat) (hi : i ≠ 0) (id : Int) (st : InitState)
    (hs : isSlot h (wrapInt32 (id - st.iotaShift)) = true) :
    initElem h i id st = (none, { st with vm := { st.vm with
      Consts := st.vm.Consts.set id (slotConst h st.vm (wrapInt32 (id - st.iotaShift))) } }) := by
  unfold initElem slotConst
  simp only [isSlot, Bool.or_eq_true, beq_iff_eq] at hs
  simp only [hi, if_false]
  split_ifs with h1 h2 h3
  · rfl
  · rfl
  · rfl
  · rcases hs with (hs | hs) | hs
    · exact absurd hs h1
    · exact absurd hs h2
    · exact absurd hs h3

theorem initElem_run_err (h : Env) (i : Nat) (hi : i ≠ 0) (id : Int) (st : InitState)
    (hs : isSlot h (wrapInt32 (id - st.iotaShift)) = false) (e : GoError)
    (he : (h.RuntimeRun st.vm (initOffset st.vm id)).2 = some e) :
    initElem h i id st = (some e, { st with
      trace := st.trace ++ [Event.runConsts id (initOffset st.vm id) (some e)] }) := by
  unfold initElem
  simp only [isSlot, Bool.or_eq_false_iff, beq_eq_false_iff_ne, ne_eq] at hs
  unfold initOffset at he
  simp only [hi, if_false, hs.1.1, hs.1.2, hs.2, he, initOffset]

theorem initElem_run_ok (h : Env) (i : Nat) (hi : i ≠ 0) (id : Int) (st : InitState)
    (hs : isSlot h (wrapInt32 (id - st.iotaShift)) = false)
    (he : (h.RuntimeRun st.vm (initOffset st.vm id)).2 = none) :
    initElem h i id st = (none, { st with
      vm := { st.vm with
        Consts := st.vm.Consts.set id (constOfValue (h.RuntimeRun st.vm (initOffset st.vm id)).1) }
      trace := st.trace ++ [Event.runConsts id (initOffset st.vm id) none] }) := by
  unfold initElem
  simp only [isSlot, Bool.or_eq_false_iff, beq_eq_false_iff_ne, ne_eq] at hs
  unfold initOffset at he
  simp only [hi, if_false, hs.1.1, hs.1.2, hs.2, he, initOffset]

/-- Whatever VM `Run` builds carries the settings it received (after the optional
playground set-up) with the defaults applied, and the image it was given. -/
theorem Run_vm_frame (h : Env) (exec : core.Exec) (settings : Settings) (os : StdHandles)
    (vm : VM) (hvm : (Run h (some exec) settings os).vm = some vm) :
    vm.Settings = applyDefaults (playgroundInit h settings).1 ∧ vm.Exec = exec := by
  unfold Run at hvm
  dsimp only at hvm
  split_ifs at hvm with hc
  split at hvm
  · simp at hvm
  · next settings1 tr hpg =>
    have hfr := initLoop_frame h (newVM exec settings1).Exec.Init 0
      ⟨0, newVM exec settings1, tr⟩
    rw [hpg]
    split at hvm
    · next err st hl =>
      rw [hl] at hfr
      simp only [Option.some.injEq] at hvm
      subst hvm
      exact hfr
    · next st hl =>
      rw [hl] at hfr
      simp only [runRoot, Option.some.injEq] at hvm
      subst hvm
      exact hfr

theorem applyDefaults_Cycle (s : Settings) :
    (applyDefaults s).Cycle = (if s.Cycle = 0 then 16000000 else s.Cycle) := by
  unfold applyDefaults
  dsimp only
  split_ifs <;> simp_all [CYCLE]

theorem applyDefaults_Depth (s : Settings) :
    (applyDefaults s).Depth = (if s.Depth = 0 then 1000 else s.Depth) := by
  unfold applyDefaults
  dsimp only
  split_ifs <;> simp_all [DEPTH]

/-- One unfolding of the loop at an index other than the first. -/
theorem initLoop_cons (h : Env) (i : Nat) (hi : i ≠ 0) (id : Int) (rest : List Int)
    (st : InitState) :
    initLoop h i (id :: rest) st =
      if isSlot h (wrapInt32 (id - st.iotaShift)) = true then
        initLoop h (i + 1) rest { st with vm := { st.vm with
          Consts := st.vm.Consts.set id (slotConst h st.vm (wrapInt32 (id - st.iotaShift))) } }
      else
        match (h.RuntimeRun st.vm (initOffset st.vm id)).2 with
        | some e => (some e, { st with
            trace := st.trace ++ [Event.runConsts id (initOffset st.vm id) (some e)] })
        | none => initLoop h (i + 1) rest { st with
            vm := { st.vm with
              Consts := st.vm.Consts.set id (constOfValue (h.RuntimeRun st.vm (initOffset st.vm id)).1) }
            trace := st.trace ++ [Event.runConsts id (initOffset st.vm id) none] } := by
  by_cases hs : isSlot h (wrapInt32 (id - st.iotaShift)) = true
  · rw [if_pos hs, initLoop, initElem_slot h i hi id st hs]
  · rw [if_neg hs]
    have hs2 : isSlot h (wrapInt32 (id - st.iotaShift)) = false := by simpa using hs
    cases he : (h.RuntimeRun st.vm (initOffset st.vm id)).2 with
    | none => rw [initLoop, initElem_run_ok h i hi id st hs2 he]
    | some e => rw [initLoop, initElem_run_err h i hi id st hs2 e he]

theorem slotConst_congr (h : Env) (vm1 vm2 : VM) (k : Int)
    (hS : vm1.Settings = vm2.Settings) (hE : vm1.Exec = vm2.Exec) :
    slotConst h vm1 k = slotConst h vm2 k := by
  simp [slotConst, hS, hE]

/-- The loop assigns only entries whose key is an element it processes. -/
theorem initLoop_other (h : Env) (ids : List Int) (j : Int) :
    ∀ (i : Nat) (st : InitState), i ≠ 0 → j ∉ ids →
      (initLoop h i ids st).2.vm.Consts j = st.vm.Consts j := by
  induction ids with
  | nil => intro i st _ _; rfl
  | cons id rest ih =>
    intro i st hi hj
    have hne : j ≠ id := fun hc => hj (hc ▸ List.mem_cons_self _ _)
    have hj2 : j ∉ rest := fun hc => hj (List.mem_cons_of_mem _ hc)
    rw [initLoop_cons h i hi]
    split_ifs
    · rw [ih (i + 1) _ (Nat.succ_ne_zero i) hj2]
      simp [ConstTable.set, hne]
    · split
      · rfl
      · rw [ih (i + 1) _ (Nat.succ_ne_zero i) hj2]
        simp [ConstTable.set, hne]

theorem initLoop_other_eq (h : Env) (ids : List Int) (j : Int) (i : Nat) (st st1 : InitState)
    (r : Option GoError) (hi : i ≠ 0) (hj : j ∉ ids) (hl : initLoop h i ids st = (r, st1)) :
    st1.vm.Consts j = st.vm.Consts j := by
  have ho := initLoop_other h ids j i st hi hj
  rw [hl] at ho
  exact ho

/-- A completed loop leaves an entry for every element it processed and keeps the
entries that were there. -/
theorem initLoop_entries (h : Env) (ids : List Int) :
    ∀ (i : Nat) (st st1 : InitState), i ≠ 0 → initLoop h i ids st = (none, st1) →
      (∀ id ∈ ids, (st1.vm.Consts id).isSome = true) ∧
      (∀ j, (st.vm.Consts j).isSome = true → (st1.vm.Consts j).isSome = true) := by
  induction ids with
  | nil =>
    intro i st st1 _ hl
    simp only [initLoop, Prod.mk.injEq, true_and] at hl
    subst hl
    exact ⟨fun id hid => absurd hid (List.not_mem_nil id), fun j hj => hj⟩
  | cons id rest ih =>
    intro i st st1 hi hl
    rw [initLoop_cons h i hi] at hl
    have step : ∀ (st2 : InitState), (st2.vm.Consts id).isSome = true →
        (∀ j, (st.vm.Consts j).isSome = true → (st2.vm.Consts j).isSome = true) →
        initLoop h (i + 1) rest st2 = (none, st1) →
        (∀ id1 ∈ id :: rest, (st1.vm.Consts id1).isSome = true) ∧
        (∀ j, (st.vm.Consts j).isSome = true → (st1.vm.Consts j).isSome = true) := by
      intro st2 hid hkeep hl2
      have hr := ih (i + 1) st2 st1 (Nat.succ_ne_zero i) hl2
      refine ⟨?_, fun j hj => hr.2 j (hkeep j hj)⟩
      intro id1 hid1
      rcases List.mem_cons.mp hid1 with heq | hmem
      · rw [heq]; exact hr.2 id hid
      · exact hr.1 id1 hmem
    split_ifs at hl
    · refine step _ ?_ ?_ hl
      · simp [ConstTable.set]
      · intro j hj
        simp only [ConstTable.set]
        split_ifs <;> simp [hj]
    · split at hl
      · simp at hl
      · refine step _ ?_ ?_ hl
        · simp [ConstTable.set]
        · intro j hj
          simp only [ConstTable.set]
          split_ifs <;> simp [hj]

/-- The calls logged by the loop are initializer calls for processed elements that are
not well-known slots. -/
theorem initLoop_trace (h : Env) (ids : List Int) :
    ∀ (i : Nat) (st : InitState), i ≠ 0 →
      ∃ evs, (initLoop h i ids st).2.trace = st.trace ++ evs ∧
        ∀ ev ∈ evs, ∃ id ∈ ids, isSlot h (wrapInt32 (id - st.iotaShift)) = false ∧
          ∃ off err, ev = Event.runConsts id off err := by
  induction ids with
  | nil => intro i st _; exact ⟨[], by simp [initLoop], by simp⟩
  | cons id rest ih =>
    intro i st hi
    rw [initLoop_cons h i hi]
    split_ifs with hs
    · obtain ⟨evs, h1, h2⟩ := ih (i + 1)
        { st with vm := { st.vm with
          Consts := st.vm.Consts.set id (slotConst h st.vm (wrapInt32 (id - st.iotaShift))) } }
        (Nat.succ_ne_zero i)
      refine ⟨evs, h1, ?_⟩
      intro ev hev
      obtain ⟨id1, hid1, hrest⟩ := h2 ev hev
      exact ⟨id1, List.mem_cons_of_mem _ hid1, hrest⟩
    · have hs2 : isSlot h (wrapInt32 (id - st.iotaShift)) = false := by simpa using hs
      split
      · next e _ =>
        refine ⟨[Event.runConsts id (initOffset st.vm id) (some e)], rfl, ?_⟩
        intro ev hev
        rw [List.mem_singleton] at hev
        exact ⟨id, List.mem_cons_self _ _, hs2, _, _, hev⟩
      · obtain ⟨evs, h1, h2⟩ := ih (i + 1)
          { st with
            vm := { st.vm with
              Consts := st.vm.Consts.set id (constOfValue (h.RuntimeRun st.vm (initOffset st.vm id)).1) }
            trace := st.trace ++ [Event.runConsts id (initOffset st.vm id) none] }
          (Nat.succ_ne_zero i)
        refine ⟨Event.runConsts id (initOffset st.vm id) none :: evs, ?_, ?_⟩
        · rw [h1]; simp
        · intro ev hev
          rcases List.mem_cons.mp hev with heq | hmem
          · exact ⟨id, List.mem_cons_self _ _, hs2, _, _, heq⟩
          · obtain ⟨id1, hid1, hrest⟩ := h2 ev hmem
            exact ⟨id1, List.mem_cons_of_mem _ hid1, hrest⟩

/-- A completed loop logged only successful initializer calls. -/
theorem initLoop_trace_ok (h : Env) (ids : List Int) :
    ∀ (i : Nat) (st st1 : InitState), i ≠ 0 → initLoop h i ids st = (none, st1) →
      ∃ evs, st1.trace = st.trace ++ evs ∧
        ∀ ev ∈ evs, ∃ id off, ev = Event.runConsts id off none := by
  induction ids with
  | nil =>
    intro i st st1 _ hl
    simp only [initLoop, Prod.mk.injEq, true_and] at hl
    subst hl
    exact ⟨[], by simp, by simp⟩
  | cons id rest ih =>
    intro i st st1 hi hl
    rw [initLoop_cons h i hi] at hl
    split_ifs at hl
    · have hr := ih (i + 1) _ st1 (Nat.succ_ne_zero i) hl
      exact hr
    · split at hl
      · simp at hl
      · obtain ⟨evs, h1, h2⟩ := ih (i + 1) _ st1 (Nat.succ_ne_zero i) hl
        refine ⟨Event.runConsts id (initOffset st.vm id) none :: evs, ?_, ?_⟩
        · rw [h1]; simp
        · intro ev hev
          rcases List.mem_cons.mp hev with heq | hmem
          · exact ⟨_, _, heq⟩
          · exact h2 ev hmem

/-- A loop that stopped with an error logged successful initializer calls followed, as
its last call, by the initializer that gave exactly this error. -/
theorem initLoop_trace_err (h : Env) (ids : List Int) :
    ∀ (i : Nat) (st st1 : InitState) (e : GoError), i ≠ 0 →
      initLoop h i ids st = (some e, st1) →
      ∃ evs id off, id ∈ ids ∧
        st1.trace = st.trace ++ evs ++ [Event.runConsts id off (some e)] ∧
        ∀ ev ∈ evs, ∃ id1 off1, ev = Event.runConsts id1 off1 none := by
  induction ids with
  | nil =>
    intro i st st1 e _ hl
    simp [initLoop] at hl
  | cons id rest ih =>
    intro i st st1 e hi hl
    rw [initLoop_cons h i hi] at hl
    split_ifs at hl
    · obtain ⟨evs, id1, off, hid1, h1, h2⟩ := ih (i + 1) _ st1 e (Nat.succ_ne_zero i) hl
      exact ⟨evs, id1, off, List.mem_cons_of_mem _ hid1, h1, h2⟩
    · split at hl
      · next e1 _ =>
        simp only [Prod.mk.injEq, Option.some.injEq] at hl
        obtain ⟨he, hst⟩ := hl
        subst he hst
        exact ⟨[], id, initOffset st.vm id, List.mem_cons_self _ _, by simp, by simp⟩
      · obtain ⟨evs, id1, off, hid1, h1, h2⟩ := ih (i + 1) _ st1 e (Nat.succ_ne_zero i) hl
        refine ⟨Event.runConsts id (initOffset st.vm id) none :: evs, id1, off,
          List.mem_cons_of_mem _ hid1, ?_, ?_⟩
        · rw [h1]; simp
        · intro ev hev
          rcases List.mem_cons.mp hev with heq | hmem
          · exact ⟨_, _, heq⟩
          · exact h2 ev hmem

/-- A completed loop stored, for every processed element that is a well-known slot, the
constant of its `case` branch. -/
theorem initLoop_slot (h : Env) (ids : List Int) :
    ∀ (i : Nat) (st st1 : InitState), i ≠ 0 → initLoop h i ids st = (none, st1) →
      ∀ cid ∈ ids, isSlot h (wrapInt32 (cid - st.iotaShift)) = true →
        st1.vm.Consts cid = some (slotConst h st.vm (wrapInt32 (cid - st.iotaShift))) := by
  induction ids with
  | nil => intro i st st1 _ _ cid hcid; exact absurd hcid (List.not_mem_nil cid)
  | cons id rest ih =>
    intro i st st1 hi hl cid hcid hs
    rw [initLoop_cons h i hi] at hl
    by_cases hmem : cid ∈ rest
    · split_ifs at hl
      · have hr := ih (i + 1) _ st1 (Nat.succ_ne_zero i) hl cid hmem hs
        rw [hr]
        exact congrArg some (slotConst_congr h _ _ _ rfl rfl)
      · split at hl
        · simp at hl
        · have hr := ih (i + 1) _ st1 (Nat.succ_ne_zero i) hl cid hmem hs
          rw [hr]
          exact congrArg some (slotConst_congr h _ _ _ rfl rfl)
    · have heq : cid = id := by
        rcases List.mem_cons.mp hcid with heq | hm
        · exact heq
        · exact absurd hm hmem
      subst heq
      rw [if_pos hs] at hl
      rw [initLoop_other_eq h rest cid (i + 1) _ st1 none (Nat.succ_ne_zero i) hmem hl]
      simp [ConstTable.set]

/-- A completed loop ran, for every processed element that is not a well-known slot, the
initializer at `Funcs[cid]` on a VM with the same settings and image, without error, and
the table holds the constant made from the value of the last such run. -/
theorem initLoop_run (h : Env) (ids : List Int) :
    ∀ (i : Nat) (st st1 : InitState), i ≠ 0 → initLoop h i ids st = (none, st1) →
      ∀ cid ∈ ids, isSlot h (wrapInt32 (cid - st.iotaShift)) = false →
        ∃ vmc : VM, vmc.Settings = st.vm.Settings ∧ vmc.Exec = st.vm.Exec ∧
          (h.RuntimeRun vmc (initOffset vmc cid)).2 = none ∧
          st1.vm.Consts cid = some (constOfValue (h.RuntimeRun vmc (initOffset vmc cid)).1) ∧
          Event.runConsts cid (initOffset vmc cid) none ∈ st1.trace := by
  induction ids with
  | nil => intro i st st1 _ _ cid hcid; exact absurd hcid (List.not_mem_nil cid)
  | cons id rest ih =>
    intro i st st1 hi hl cid hcid hs
    rw [initLoop_cons h i hi] at hl
    by_cases hmem : cid ∈ rest
    · split_ifs at hl
      · exact ih (i + 1) _ st1 (Nat.succ_ne_zero i) hl cid hmem hs
      · split at hl
        · simp at hl
        · exact ih (i + 1) _ st1 (Nat.succ_ne_zero i) hl cid hmem hs
    · have heq : cid = id := by
        rcases List.mem_cons.mp hcid with heq | hm
        · exact heq
        · exact absurd hm hmem
      subst heq
      have hns : ¬ isSlot h (wrapInt32 (cid - st.iotaShift)) = true := by simp [hs]
      rw [if_neg hns] at hl
      split at hl
      · simp at hl
      · next he =>
        have ho := initLoop_other_eq h rest cid (i + 1) _ st1 none (Nat.succ_ne_zero i) hmem hl
        obtain ⟨evs, ht, _⟩ := initLoop_trace_ok h rest (i + 1) _ st1 (Nat.succ_ne_zero i) hl
        refine ⟨st.vm, rfl, rfl, he, ?_, ?_⟩
        · rw [ho]
          simp [ConstTable.set]
        · rw [ht]
          simp

/-- The loop as `Run` starts it: index `0`, `iotaShift` zero, the fresh VM. -/
theorem initLoop_start (h : Env) (base : Int) (rest : List Int) (vm : VM) (tr : List Event) :
    initLoop h 0 (base :: rest) ⟨0, vm, tr⟩ =
      initLoop h 1 rest ⟨base,
        { vm with Consts := vm.Consts.set base ⟨core.TYPEINT, some (Value.int64 0)⟩ }, tr⟩ := by
  rw [initLoop, initElem_zero]

/-- A call that returned from the last line went through a completed init loop. -/
theorem Run_done_inv (h : Env) (exec : core.Exec) (settings : Settings) (os : StdHandles)
    (hret : (Run h (some exec) settings os).ret = ReturnSite.done) :
    ∃ st, initLoop h 0 exec.Init
        ⟨0, newVM exec (playgroundInit h settings).1, (playgroundInit h settings).2.2⟩ = (none, st) ∧
      Run h (some exec) settings os =
        runRoot h st.vm (savedHandles (applyDefaults (playgroundInit h settings).1) os)
          (installHandles (applyDefaults (playgroundInit h settings).1) os) st.trace := by
  unfold Run at hret ⊢
  dsimp only at hret ⊢
  split_ifs at hret ⊢ with hc
  split at hret
  · simp at hret
  · next settings1 tr hpg =>
    rw [hpg]
    dsimp only
    split at hret
    · simp at hret
    · next st hl =>
      exact ⟨st, hl, rfl⟩

/-- A call that returned from inside the init loop returned the loop's error. -/
theorem Run_constInit_inv (h : Env) (exec : core.Exec) (settings : Settings) (os : StdHandles)
    (hret : (Run h (some exec) settings os).ret = ReturnSite.constInit) :
    ∃ e st, initLoop h 0 exec.Init
        ⟨0, newVM exec (playgroundInit h settings).1, (playgroundInit h settings).2.2⟩ = (some e, st) ∧
      (Run h (some exec) settings os).result = none ∧
      (Run h (some exec) settings os).err = some e ∧
      (Run h (some exec) settings os).trace = st.trace ∧
      (Run h (some exec) settings os).vm = some st.vm := by
  unfold Run at hret ⊢
  dsimp only at hret ⊢
  split_ifs at hret ⊢ with hc
  split at hret
  · simp at hret
  · next settings1 tr hpg =>
    rw [hpg]
    dsimp only
    split at hret
    · next e st hl =>
      exact ⟨e, st, hl, by simp⟩
    · simp [runRoot] at hret

theorem playgroundInit_trace (h : Env) (settings : Settings) :
    ∀ ev ∈ (playgroundInit h settings).2.2, ev = Event.InitPlayground := by
  unfold playgroundInit
  split_ifs <;> simp

/-- The call log of a run that reached the last line: the log of the init loop, then the
root context and nothing but `closeAll` and `DeinitPlayground` calls. -/
theorem runRoot_trace (h : Env) (vm : VM) (saved os : StdHandles) (tr : List Event) :
    ∃ tail, (runRoot h vm saved os tr).trace = tr ++ Event.rootRun :: tail ∧
      ∀ ev ∈ tail, ev = Event.closeAll ∨ ev = Event.DeinitPlayground := by
  refine ⟨(if (h.RuntimeRun vm 0).2.isSome then [Event.closeAll] else []) ++
    h.ChError.map (fun _ => Event.closeAll) ++
    (if vm.Settings.IsPlayground then [Event.DeinitPlayground] else []), ?_, ?_⟩
  · simp [runRoot]
  · intro ev hev
    simp only [List.mem_append, List.mem_map] at hev
    rcases hev with (hev | hev) | hev
    · split_ifs at hev
      · left; simpa using hev
      · simp at hev
    · obtain ⟨_, _, hev⟩ := hev
      exact Or.inl hev.symm
    · split_ifs at hev
      · right; simpa using hev
      · simp at hev

/-- A call that returned before the init loop logged at most the playground set-up. -/
theorem Run_trace_early (h : Env) (exec : core.Exec) (settings : Settings) (os : StdHandles)
    (h1 : (Run h (some exec) settings os).ret ≠ ReturnSite.constInit)
    (h2 : (Run h (some exec) settings os).ret ≠ ReturnSite.done) :
    ∀ ev ∈ (Run h (some exec) settings os).trace, ev = Event.InitPlayground := by
  have hpt := playgroundInit_trace h settings
  unfold Run at h1 h2 ⊢
  dsimp only at h1 h2 ⊢
  split_ifs at h1 h2 ⊢ with hc
  · simp
  · split at h1
    · next s1 err tr hpg =>
      rw [hpg] at hpt
      exact hpt
    · next s1 tr hpg =>
      exfalso
      split at h1
      · exact h1 rfl
      · rw [hpg] at h2
        dsimp only at h2
        split at h2
        · rename_i heq1 _ _ _ heq2
          rw [heq1] at heq2
          simp at heq2
        · exact h2 rfl

/-- The loop as `Run` starts it logs initializer calls only for elements after the first
that are not well-known slots relative to the first. -/
theorem initLoop_run_trace (h : Env) (exec : core.Exec) (settings : Settings)
    (id off : Int) (err : Option GoError)
    (hmem : Event.runConsts id off err ∈ (initLoop h 0 exec.Init
      ⟨0, newVM exec (playgroundInit h settings).1, (playgroundInit h settings).2.2⟩).2.trace) :
    ∃ base rest, exec.Init = base :: rest ∧ id ∈ rest ∧
      isSlot h (wrapInt32 (id - base)) = false := by
  cases hi : exec.Init with
  | nil =>
    rw [hi] at hmem
    simp only [initLoop] at hmem
    have := playgroundInit_trace h settings _ hmem
    cases this
  | cons base rest =>
    rw [hi, initLoop_start] at hmem
    obtain ⟨evs, ht, hev⟩ := initLoop_trace h rest 1
      ⟨base, { newVM exec (playgroundInit h settings).1 with
        Consts := (newVM exec (playgroundInit h settings).1).Consts.set base
          ⟨core.TYPEINT, some (Value.int64 0)⟩ }, (playgroundInit h settings).2.2⟩ Nat.one_ne_zero
    rw [ht] at hmem
    rcases List.mem_append.mp hmem with hm | hm
    · have := playgroundInit_trace h settings _ hm
      cases this
    · obtain ⟨id1, hid1, hs, off1, err1, heq⟩ := hev _ hm
      cases heq
      exact ⟨base, rest, rfl, hid1, hs⟩

/-- In every call of `Run`, an initializer is run only for an init element after the
first that is not a well-known slot. -/
theorem Run_trace_runConsts (h : Env) (exec : core.Exec) (settings : Settings)
    (os : StdHandles) (id off : Int) (err : Option GoError)
    (hmem : Event.runConsts id off err ∈ (Run h (some exec) settings os).trace) :
    ∃ base rest, exec.Init = base :: rest ∧ id ∈ rest ∧
      isSlot h (wrapInt32 (id - base)) = false := by
  by_cases h1 : (Run h (some exec) settings os).ret = ReturnSite.constInit
  · obtain ⟨e, st, hl, _, _, htr, _⟩ := Run_constInit_inv h exec settings os h1
    rw [htr] at hmem
    apply initLoop_run_trace h exec settings id off err
    rw [hl]
    exact hmem
  · by_cases h2 : (Run h (some exec) settings os).ret = ReturnSite.done
    · obtain ⟨st, hl, hrun⟩ := Run_done_inv h exec settings os h2
      obtain ⟨tail, htr, htail⟩ := runRoot_trace h st.vm
        (savedHandles (applyDefaults (playgroundInit h settings).1) os)
        (installHandles (applyDefaults (playgroundInit h settings).1) os) st.trace
      rw [hrun, htr] at hmem
      rcases List.mem_append.mp hmem with hm | hm
      · apply initLoop_run_trace h exec settings id off err
        rw [hl]
        exact hm
      · rcases List.mem_cons.mp hm with hm | hm
        · cases hm
        · rcases htail _ hm with hc | hc <;> cases hc
    · have := Run_trace_early h exec settings os h1 h2 _ hmem
      cases this

theorem slotConst_depth (h : Env) (vm : VM) (k : Int) (hk : k = h.ConstDepthID) :
    slotConst h vm k = ⟨core.TYPEINT, some (Value.int64 (toInt64 vm.Settings.Depth))⟩ := by
  simp [slotConst, hk]

theorem slotConst_cycle (h : Env) (vm : VM) (k : Int) (hd : h.ConstDepthID ≠ h.ConstCycleID)
    (hk : k = h.ConstCycleID) :
    slotConst h vm k = ⟨core.TYPEINT, some (Value.int64 (toInt64 vm.Settings.Cycle))⟩ := by
  simp [slotConst, hk, hd.symm]

theorem slotConst_script (h : Env) (vm : VM) (k : Int)
    (hd1 : h.ConstDepthID ≠ h.ConstScriptID) (hd2 : h.ConstCycleID ≠ h.ConstScriptID)
    (hk : k = h.ConstScriptID) :
    slotConst h vm k = ⟨core.TYPESTR, some (Value.string vm.Exec.Path)⟩ := by
  simp [slotConst, hk, hd1.symm, hd2.symm]

theorem isSlot_of_eq (h : Env) (k : Int)
    (hk : k = h.ConstDepthID ∨ k = h.ConstCycleID ∨ k = h.ConstScriptID) :
    isSlot h k = true := by
  simp only [isSlot, Bool.or_eq_true, beq_iff_eq]
  tauto

/-- A completed call stored, for an init element after the first that is a well-known
slot, the constant of its `case` branch, computed from the VM's own settings. -/
theorem Run_done_slot (h : Env) (exec : core.Exec) (settings : Settings) (os : StdHandles)
    (base : Int) (rest : List Int) (cid : Int)
    (hinit : exec.Init = base :: rest) (hcid : cid ∈ rest)
    (hs : isSlot h (wrapInt32 (cid - base)) = true)
    (hret : (Run h (some exec) settings os).ret = ReturnSite.done) :
    ∃ vm, (Run h (some exec) settings os).vm = some vm ∧
      vm.Settings = applyDefaults (playgroundInit h settings).1 ∧ vm.Exec = exec ∧
      vm.Consts cid = some (slotConst h vm (wrapInt32 (cid - base))) := by
  obtain ⟨st, hl, hrun⟩ := Run_done_inv h exec settings os hret
  have hvm : (Run h (some exec) settings os).vm = some st.vm := by rw [hrun]; rfl
  have hfr := Run_vm_frame h exec settings os st.vm hvm
  rw [hinit, initLoop_start] at hl
  have hsl := initLoop_slot h rest 1 _ st Nat.one_ne_zero hl cid hcid hs
  refine ⟨st.vm, hvm, hfr.1, hfr.2, ?_⟩
  rw [hsl]
  exact congrArg some (slotConst_congr h _ _ _ hfr.1.symm hfr.2.symm)

theorem isSlot_false_of_ne (h : Env) (k : Int)
    (hk : k ≠ h.ConstDepthID ∧ k ≠ h.ConstCycleID ∧ k ≠ h.ConstScriptID) :
    isSlot h k = false := by
  simp only [isSlot, Bool.or_eq_false_iff, beq_eq_false_iff_ne, ne_eq]
  exact ⟨⟨hk.1, hk.2.1⟩, hk.2.2⟩

/-- A completed call ran, for an init element after the first that is not a well-known
slot, its initializer at `Funcs[cid]` without error and holds the constant made from
the value of the last such run. -/
theorem Run_done_run (h : Env) (exec : core.Exec) (settings : Settings) (os : StdHandles)
    (base : Int) (rest : List Int) (cid : Int)
    (hinit : exec.Init = base :: rest) (hcid : cid ∈ rest)
    (hs : isSlot h (wrapInt32 (cid - base)) = false)
    (hret : (Run h (some exec) settings os).ret = ReturnSite.done) :
    ∃ vm vmc : VM, (Run h (some exec) settings os).vm = some vm ∧
      vmc.Settings = vm.Settings ∧ vmc.Exec = exec ∧
      (h.RuntimeRun vmc ((exec.Funcs cid).getD 0)).2 = none ∧
      vm.Consts cid = some (constOfValue (h.RuntimeRun vmc ((exec.Funcs cid).getD 0)).1) ∧
      Event.runConsts cid ((exec.Funcs cid).getD 0) none ∈
        (Run h (some exec) settings os).trace := by
  obtain ⟨st, hl, hrun⟩ := Run_done_inv h exec settings os hret
  have hvm : (Run h (some exec) settings os).vm = some st.vm := by rw [hrun]; rfl
  have hfr := Run_vm_frame h exec settings os st.vm hvm
  obtain ⟨tail, htr, _⟩ := runRoot_trace h st.vm
    (savedHandles (applyDefaults (playgroundInit h settings).1) os)
    (installHandles (applyDefaults (playgroundInit h settings).1) os) st.trace
  rw [hinit, initLoop_start] at hl
  obtain ⟨vmc, hS, hE, herr, hc, hev⟩ :=
    initLoop_run h rest 1 _ st Nat.one_ne_zero hl cid hcid hs
  have hE2 : vmc.Exec = exec := hE
  have hoff : initOffset vmc cid = (exec.Funcs cid).getD 0 := by
    unfold initOffset
    rw [hE2]
  rw [hoff] at herr hc hev
  refine ⟨st.vm, vmc, hvm, ?_, hE2, herr, hc, ?_⟩
  · rw [hfr.1]
    exact hS
  · rw [hrun, htr]
    exact List.mem_append_left _ hev

/-- The loop as `Run` starts it, when it completes, logged only successful calls. -/
theorem initLoop_start_trace_ok (h : Env) (ids : List Int) (vm : VM) (tr : List Event)
    (st : InitState) (hl : initLoop h 0 ids ⟨0, vm, tr⟩ = (none, st)) :
    ∃ evs, st.trace = tr ++ evs ∧ ∀ ev ∈ evs, ∃ id off, ev = Event.runConsts id off none := by
  cases ids with
  | nil =>
    simp only [initLoop, Prod.mk.injEq, true_and] at hl
    subst hl
    exact ⟨[], by simp, by simp⟩
  | cons base rest =>
    rw [initLoop_start] at hl
    have hr := initLoop_trace_ok h rest 1 _ st Nat.one_ne_zero hl
    exact hr

/-- The loop as `Run` starts it, when it stops with an error, logged successful calls
and last the call that gave this error. -/
theorem initLoop_start_trace_err (h : Env) (ids : List Int) (vm : VM) (tr : List Event)
    (st : InitState) (e : GoError) (hl : initLoop h 0 ids ⟨0, vm, tr⟩ = (some e, st)) :
    ∃ evs id off, id ∈ ids ∧ st.trace = tr ++ evs ++ [Event.runConsts id off (some e)] ∧
      ∀ ev ∈ evs, ∃ id1 off1, ev = Event.runConsts id1 off1 none := by
  cases ids with
  | nil => simp [initLoop] at hl
  | cons base rest =>
    rw [initLoop_start] at hl
    obtain ⟨evs, id, off, hid, ht, hev⟩ :=
      initLoop_trace_err h rest 1 _ st e Nat.one_ne_zero hl
    exact ⟨evs, id, off, List.mem_cons_of_mem _ hid, ht, hev⟩

/-- The loop as `Run` starts it, when it completes, left an entry for every element. -/
theorem initLoop_start_entries (h : Env) (ids : List Int) (vm : VM) (tr : List Event)
    (st : InitState) (hl : initLoop h 0 ids ⟨0, vm, tr⟩ = (none, st)) :
    ∀ id ∈ ids, (st.vm.Consts id).isSome = true := by
  cases ids with
  | nil => intro id hid; exact absurd hid (List.not_mem_nil id)
  | cons base rest =>
    rw [initLoop_start] at hl
    have hr := initLoop_entries h rest 1 _ st Nat.one_ne_zero hl
    intro id hid
    rcases List.mem_cons.mp hid with heq | hmem
    · rw [heq]
      exact hr.2 base (by simp [ConstTable.set])
    · exact hr.1 id hmem

theorem drain_some (e : GoError) (errs : List (Option GoError)) :
    drain (some e) errs = some e := by
  induction errs with
  | nil => rfl
  | cons err rest ih => simpa [drain] using ih

/-- The drain loop keeps a non-nil error and otherwise takes the first non-nil value
it receives. -/
theorem drain_eq (errResult : Option GoError) (errs : List (Option GoError)) :
    drain errResult errs =
      match errResult with
      | some e => some e
      | none => (errs.filterMap id).head? := by
  induction errs generalizing errResult with
  | nil => cases errResult <;> rfl
  | cons err rest ih =>
    cases errResult with
    | some e => exact drain_some e (err :: rest)
    | none =>
      cases err with
      | none => simpa [drain] using ih none
      | some e1 => simpa [drain] using drain_some e1 rest

theorem drain_append (errResult : Option GoError) (errs1 errs2 : List (Option GoError)) :
    drain errResult (errs1 ++ errs2) = drain (drain errResult errs1) errs2 := by
  induction errs1 generalizing errResult with
  | nil => rfl
  | cons err rest ih =>
    show drain _ (rest ++ errs2) = drain (drain _ rest) errs2
    exact ih _

/-- What a completed call returns, in terms of the root context's outcome. -/
theorem Run_done_result (h : Env) (exec : core.Exec) (settings : Settings) (os : StdHandles)
    (hret : (Run h (some exec) settings os).ret = ReturnSite.done) :
    ∃ vm, (Run h (some exec) settings os).vm = some vm ∧
      (Run h (some exec) settings os).result =
        (unwrapExit h (h.RuntimeRun vm 0).1 (drain (h.RuntimeRun vm 0).2 h.ChError)).1 ∧
      (Run h (some exec) settings os).err =
        (unwrapExit h (h.RuntimeRun vm 0).1 (drain (h.RuntimeRun vm 0).2 h.ChError)).2 := by
  obtain ⟨st, _, hrun⟩ := Run_done_inv h exec settings os hret
  exact ⟨st.vm, by rw [hrun]; rfl, by rw [hrun]; rfl, by rw [hrun]; rfl⟩

/-- On every return path other than the one inside the init loop, process handles that
were all non-nil before the call are the same after it. -/
theorem Run_restores_outside_init (h : Env) (exec : core.Exec) (settings : Settings)
    (os : StdHandles)
    (hos : os.Stdin.isSome = true ∧ os.Stdout.isSome = true ∧ os.Stderr.isSome = true)
    (hret : (Run h (some exec) settings os).ret ≠ ReturnSite.constInit) :
    (Run h (some exec) settings os).os = os := by
  by_cases h2 : (Run h (some exec) settings os).ret = ReturnSite.done
  · obtain ⟨st, _, hrun⟩ := Run_done_inv h exec settings os h2
    rw [hrun]
    obtain ⟨i, o, e⟩ := os
    simp only [runRoot, restoreHandles, savedHandles, installHandles]
    simp only at hos
    obtain ⟨hi, ho, he⟩ := hos
    congr 1 <;> split_ifs <;> simp_all
  · unfold Run at hret h2 ⊢
    dsimp only at hret h2 ⊢
    split_ifs at hret h2 ⊢ with hc
    · rfl
    · split at hret
      · rfl
      · exfalso
        split at hret
        · exact hret rfl
        · rename_i s1 tr hpg _ st hl
          rw [hpg] at h2
          dsimp only at h2
          rw [hl] at h2
          exact h2 rfl

/-! ## Helper lemmas on 64-bit integer arithmetic -/

theorem wrapInt64_of_range (x : Int) (h1 : -9223372036854775808 ≤ x)
    (h2 : x < 9223372036854775808) : stdlib.wrapInt64 x = x := by
  unfold stdlib.wrapInt64
  omega

theorem wrapInt64_range (y : Int) :
    -9223372036854775808 ≤ stdlib.wrapInt64 y ∧ stdlib.wrapInt64 y < 9223372036854775808 := by
  unfold stdlib.wrapInt64
  omega

theorem wrapInt64_sub_emod (y : Int) : (stdlib.wrapInt64 y - y) % 18446744073709551616 = 0 := by
  unfold stdlib.wrapInt64
  omega

theorem wrapInt64_congr (a b : Int) (h : (a - b) % 18446744073709551616 = 0) :
    stdlib.wrapInt64 a = stdlib.wrapInt64 b := by
  unfold stdlib.wrapInt64
  omega

theorem wrapInt64_mul_two (y : Int) :
    stdlib.wrapInt64 (stdlib.wrapInt64 y * 2) = stdlib.wrapInt64 (y * 2) := by
  apply wrapInt64_congr
  have := wrapInt64_sub_emod y
  omega

theorem shl64_eq (x : Int) (h1 : -9223372036854775808 ≤ x) (h2 : x < 9223372036854775808)
    (n : Nat) : stdlib.shl64 x n = stdlib.wrapInt64 (x * 2 ^ n) := by
  induction n with
  | zero => simp [stdlib.shl64, wrapInt64_of_range x h1 h2]
  | succ n ih =>
    rw [stdlib.shl64, ih, wrapInt64_mul_two, pow_succ, mul_assoc]

theorem wrapInt64_shift_out (x : Int) (n : Nat) (hn : 64 ≤ n) :
    stdlib.wrapInt64 (x * 2 ^ n) = 0 := by
  obtain ⟨m, rfl⟩ := Nat.exists_eq_add_of_le hn
  have h64 : (2 : Int) ^ 64 = 18446744073709551616 := by norm_num
  rw [pow_add, h64]
  generalize (2 : Int) ^ m = k
  unfold stdlib.wrapInt64
  have : x * (18446744073709551616 * k) = 18446744073709551616 * (x * k) := by ring
  rw [this]
  generalize x * k = j
  omega

theorem ediv_ediv_two (x b : Int) (hb : 0 < b) : x / b / 2 = x / (b * 2) := by
  have h1 := Int.emod_add_ediv x b
  have h2 := Int.emod_nonneg x (ne_of_gt hb)
  have h3 := Int.emod_lt_of_pos x hb
  have h4 := Int.emod_add_ediv (x / b) 2
  have h5 := Int.emod_nonneg (x / b) (by decide : (2 : Int) ≠ 0)
  have h6 := Int.emod_lt_of_pos (x / b) (by decide : (0 : Int) < 2)
  have hb2 : 0 < b * 2 := by omega
  have key := (Int.ediv_emod_unique (a := x) (q := x / b / 2)
    (r := b * (x / b % 2) + x % b) hb2).mpr ?_
  · exact key.1.symm
  · refine ⟨?_, ?_, ?_⟩
    · calc b * (x / b % 2) + x % b + b * 2 * (x / b / 2)
          = x % b + b * (x / b % 2 + 2 * (x / b / 2)) := by ring
        _ = x % b + b * (x / b) := by rw [h4]
        _ = x := h1
    · have : 0 ≤ b * (x / b % 2) := mul_nonneg (le_of_lt hb) h5
      omega
    · have hr : x / b % 2 = 0 ∨ x / b % 2 = 1 := by omega
      rcases hr with hr | hr <;> rw [hr] <;> omega

theorem shr64_eq (x : Int) (n : Nat) : stdlib.shr64 x n = Int.fdiv x (2 ^ n) := by
  induction n with
  | zero => simp [stdlib.shr64, Int.fdiv_eq_ediv]
  | succ n ih =>
    have hp : (0 : Int) < 2 ^ n := by positivity
    have hp2 : (0 : Int) ≤ 2 ^ (n + 1) := by positivity
    rw [stdlib.shr64, ih, Int.fdiv_eq_ediv _ (by decide : (0 : Int) ≤ 2),
      Int.fdiv_eq_ediv _ (le_of_lt hp), Int.fdiv_eq_ediv _ hp2, ediv_ediv_two _ _ hp, pow_succ]

theorem fdiv_shift_out (x : Int) (h1 : -9223372036854775808 ≤ x) (h2 : x < 9223372036854775808)
    (n : Nat) (hn : 64 ≤ n) : Int.fdiv x (2 ^ n) = if x < 0 then -1 else 0 := by
  obtain ⟨m, rfl⟩ := Nat.exists_eq_add_of_le hn
  have h64 : (2 : Int) ^ 64 = 18446744073709551616 := by norm_num
  have hm : (1 : Int) ≤ 2 ^ m := one_le_pow₀ (by norm_num)
  have hbig : (18446744073709551616 : Int) ≤ 2 ^ (64 + m) := by
    rw [pow_add, h64]
    nlinarith
  have hpos : (0 : Int) < 2 ^ (64 + m) := by positivity
  rw [Int.fdiv_eq_ediv _ (le_of_lt hpos)]
  generalize (2 : Int) ^ (64 + m) = b at hbig hpos ⊢
  split_ifs with hx
  · have := (Int.ediv_emod_unique (a := x) (q := -1) (r := x + b) hpos).mpr
      ⟨by ring, by omega, by omega⟩
    exact this.1
  · exact Int.ediv_eq_zero_of_lt (by omega) (by omega)

theorem toUint64_of_nonneg (v : Int) (h0 : 0 ≤ v) (h2 : v < 9223372036854775808) :
    stdlib.toUint64 v = v.toNat := by
  unfold stdlib.toUint64
  omega

theorem tmod_neg_left (x v : Int) : Int.tmod (-x) v = -Int.tmod x v := by
  rw [Int.tmod_def, Int.tmod_def, Int.neg_tdiv]
  ring

theorem tmod_sign_bound (x v : Int) (hv : v ≠ 0) :
    (0 ≤ x → 0 ≤ Int.tmod x v) ∧ (x ≤ 0 → Int.tmod x v ≤ 0) ∧
    |Int.tmod x v| < |v| := by
  have pos : ∀ (y w : Int), 0 ≤ y → 0 < w → 0 ≤ Int.tmod y w ∧ Int.tmod y w < w :=
    fun y w hy hw => ⟨Int.tmod_nonneg w hy, Int.tmod_lt_of_pos y hw⟩
  have posv : ∀ (y w : Int), 0 ≤ y → w ≠ 0 → 0 ≤ Int.tmod y w ∧ Int.tmod y w < |w| := by
    intro y w hy hw
    rcases lt_or_gt_of_ne hw with hneg | hpos
    · have := pos y (-w) hy (by omega)
      rw [Int.tmod_neg] at this
      rw [abs_of_neg hneg]
      exact this
    · rw [abs_of_pos hpos]
      exact pos y w hy hpos
  rcases le_total 0 x with hx | hx
  · have := posv x v hx hv
    refine ⟨fun _ => this.1, fun hx2 => ?_, ?_⟩
    · have h0 : x = 0 := le_antisymm hx2 hx
      rw [h0, Int.zero_tmod]
    · rw [abs_of_nonneg this.1]
      exact this.2
  · have := posv (-x) v (by omega) hv
    rw [tmod_neg_left] at this
    refine ⟨fun hx2 => ?_, fun _ => by omega, ?_⟩
    · have h0 : x = 0 := le_antisymm hx hx2
      rw [h0, Int.zero_tmod]
    · rw [abs_of_nonpos (by omega)]
      exact this.2

theorem tdiv_range (x v : Int) (h1 : -9223372036854775808 ≤ x) (h2 : x < 9223372036854775808)
    (hv : v ≠ 0) :
    -9223372036854775808 ≤ Int.tdiv x v ∧ Int.tdiv x v ≤ 9223372036854775808 ∧
    (Int.tdiv x v = 9223372036854775808 → x = -9223372036854775808 ∧ v = -1) := by
  have hn : (Int.tdiv x v).natAbs = x.natAbs / v.natAbs := Int.natAbs_tdiv x v
  have hle : x.natAbs / v.natAbs ≤ x.natAbs := Nat.div_le_self _ _
  have hmul : x.natAbs / v.natAbs * v.natAbs ≤ x.natAbs := Nat.div_mul_le_self _ _
  refine ⟨by omega, by omega, ?_⟩
  intro hq
  have hd : x.natAbs / v.natAbs = 9223372036854775808 := by omega
  rw [hd] at hmul
  have hx : x = -9223372036854775808 := by omega
  refine ⟨hx, ?_⟩
  have hv1 : v = 1 ∨ v = -1 := by omega
  rcases hv1 with hv1 | hv1
  · rw [hv1, Int.tdiv_one] at hq
    omega
  · exact hv1

/-- `AssignAddºIntInt` on a byte target, as one equation. -/
theorem AssignAddIntInt_uint8 (errorText : core.ErrID → String) (b : Nat) (v : Int)
    (hb : b ≤ 255) (hv : -9223372036854775808 ≤ v ∧ v < 9223372036854775808) :
    stdlib.AssignAddIntInt errorText (Value.uint8 b) v =
      if (b : Int) + v < 0 ∨ 255 < (b : Int) + v then
        some ⟨Value.uint8 b, 0, some (GoError.errorf (errorText core.ErrID.ErrByteOut))⟩
      else some ⟨Value.int64 ((b : Int) + v), (b : Int) + v, none⟩ := by
  split_ifs with h
  · have hgt : stdlib.toUint64 (stdlib.add64 v (b : Int)) > 255 := by
      unfold stdlib.toUint64 stdlib.add64 stdlib.wrapInt64
      omega
    simp only [stdlib.AssignAddIntInt, hgt, if_true]
  · have hsum : stdlib.add64 v (b : Int) = (b : Int) + v := by
      unfold stdlib.add64 stdlib.wrapInt64
      omega
    have hle : ¬ stdlib.toUint64 ((b : Int) + v) > 255 := by
      unfold stdlib.toUint64
      omega
    simp only [stdlib.AssignAddIntInt, hsum, hle, if_false]

/-- `AssignAddºIntInt` on a byte target fails exactly when the sum leaves `0..255`. -/
theorem AssignAddIntInt_uint8_err (errorText : core.ErrID → String) (b : Nat) (v : Int)
    (hb : b ≤ 255) (hv : -9223372036854775808 ≤ v ∧ v < 9223372036854775808) :
    (stdlib.AssignAddIntInt errorText (Value.uint8 b) v).bind (fun r => r.err) =
        some (GoError.errorf (errorText core.ErrID.ErrByteOut)) ↔
      ((b : Int) + v < 0 ∨ 255 < (b : Int) + v) := by
  rw [AssignAddIntInt_uint8 errorText b v hb hv]
  split_ifs with h
  · simp [h]
  · simp [h]

theorem toInt64_small (n : Nat) (hn : n < 9223372036854775808) : toInt64 n = (n : Int) := by
  unfold toInt64
  split_ifs <;> omega

theorem toInt64_big (n : Nat) (h1 : 9223372036854775808 ≤ n) (h2 : n < 18446744073709551616) :
    toInt64 n = (n : Int) - 18446744073709551616 := by
  unfold toInt64
  split_ifs <;> omega

/-! ## Helper lemmas on the stack consistency of constants -/

theorem stackConsistent_base :
    Const.stackConsistent ⟨core.TYPEINT, some (Value.int64 0)⟩ = true := by
  decide

theorem stackConsistent_int (typ : Nat) (v : Int) (ht : typ &&& 0xF = core.STACKINT) :
    Const.stackConsistent ⟨typ, some (Value.int64 v)⟩ = true := by
  simp only [Const.stackConsistent, ht, beq_self_eq_true]

theorem stackConsistent_str (typ : Nat) (t : String) (ht : typ &&& 0xF = core.STACKSTR) :
    Const.stackConsistent ⟨typ, some (Value.string t)⟩ = true := by
  simp only [Const.stackConsistent, ht, beq_self_eq_true]

theorem stackConsistent_float (typ : Nat) (f : Nat) (ht : typ &&& 0xF = core.STACKFLOAT) :
    Const.stackConsistent ⟨typ, some (Value.float64 f)⟩ = true := by
  simp only [Const.stackConsistent, ht, beq_self_eq_true]

theorem stackConsistent_slotConst (h : Env) (vm : VM) (k : Int) :
    (slotConst h vm k).stackConsistent = true := by
  unfold slotConst
  split_ifs
  · exact stackConsistent_int _ _ (by decide)
  · exact stackConsistent_int _ _ (by decide)
  · exact stackConsistent_str _ _ (by decide)

theorem stackConsistent_constOfValue (val : Option Value) (hk : isConstKind val = true) :
    (constOfValue val).stackConsistent = true := by
  cases val with
  | none => simp [isConstKind] at hk
  | some v =>
    cases v with
    | int64 x => exact stackConsistent_int _ _ (by decide)
    | float64 f => exact stackConsistent_float _ _ (by decide)
    | bool b =>
      cases b
      · exact stackConsistent_int _ _ (by decide)
      · exact stackConsistent_int _ _ (by decide)
    | rune c => exact stackConsistent_int _ _ (by decide)
    | string t => exact stackConsistent_str _ _ (by decide)
    | int x => simp [isConstKind] at hk
    | uint8 b => simp [isConstKind] at hk
    | other d => simp [isConstKind] at hk

/-- What the check `stackConsistent` means, nibble by nibble. -/
theorem stackConsistent_spec (c : Const) (hc : c.stackConsistent = true) :
    (c.Typ &&& 0xF = core.STACKINT → ∃ v, c.Value = some (Value.int64 v)) ∧
    (c.Typ &&& 0xF = core.STACKSTR → ∃ t, c.Value = some (Value.string t)) ∧
    (c.Typ &&& 0xF = core.STACKFLOAT → ∃ f, c.Value = some (Value.float64 f)) ∧
    c.Typ &&& 0xF ≠ core.STACKNONE ∧ c.Typ &&& 0xF ≠ core.STACKANY := by
  obtain ⟨typ, val⟩ := c
  have e1 : core.STACKINT = 1 := rfl
  have e2 : core.STACKSTR = 2 := rfl
  have e3 : core.STACKFLOAT = 3 := rfl
  have e0 : core.STACKNONE = 0 := rfl
  have e4 : core.STACKANY = 4 := rfl
  simp only [Const.stackConsistent] at hc
  simp only [e0, e1, e2, e3, e4] at hc ⊢
  generalize typ &&& 15 = n at hc ⊢
  split at hc
  · next _ v =>
    simp only [beq_iff_eq] at hc
    subst hc
    exact ⟨fun _ => ⟨v, rfl⟩, fun hn => absurd hn (by decide), fun hn => absurd hn (by decide),
      by decide, by decide⟩
  · next _ t =>
    simp only [beq_iff_eq] at hc
    subst hc
    exact ⟨fun hn => absurd hn (by decide), fun _ => ⟨t, rfl⟩, fun hn => absurd hn (by decide),
      by decide, by decide⟩
  · next _ f =>
    simp only [beq_iff_eq] at hc
    subst hc
    exact ⟨fun hn => absurd hn (by decide), fun hn => absurd hn (by decide), fun _ => ⟨f, rfl⟩,
      by decide, by decide⟩
  · exact absurd hc (by decide)

/-- The VM that `Run` leaves is the one of its init loop. -/
theorem Run_vm_loop (h : Env) (exec : core.Exec) (settings : Settings) (os : StdHandles)
    (vm : VM) (hvm : (Run h (some exec) settings os).vm = some vm) :
    vm = (initLoop h 0 exec.Init
      ⟨0, newVM exec (playgroundInit h settings).1, (playgroundInit h settings).2.2⟩).2.vm := by
  unfold Run at hvm
  dsimp only at hvm
  split_ifs at hvm with hc
  split at hvm
  · simp at hvm
  · next settings1 tr hpg =>
    rw [hpg]
    dsimp only
    split at hvm
    · next err st hl =>
      simp only [Option.some.injEq] at hvm
      simp only [newVM] at hl ⊢
      rw [hl, ← hvm]
    · next st hl =>
      simp only [runRoot, Option.some.injEq] at hvm
      simp only [newVM] at hl ⊢
      rw [hl, ← hvm]

/-- The loop over a concatenation: the loop over the first part and, when that completes,
the loop over the second part at the following index. -/
theorem initLoop_append (h : Env) (pre l : List Int) :
    ∀ (i : Nat) (st : InitState),
      initLoop h i (pre ++ l) st =
        match initLoop h i pre st with
        | (some e, s) => (some e, s)
        | (none, s) => initLoop h (i + pre.length) l s := by
  induction pre with
  | nil => intro i st; simp [initLoop]
  | cons id rest ih =>
    intro i st
    simp only [List.cons_append, initLoop, List.length_cons]
    cases hstep : initElem h i id st with
    | mk r s =>
      cases r with
      | some e => rfl
      | none =>
        have hidx : i + 1 + rest.length = i + (rest.length + 1) := by omega
        have hih := ih (i + 1) s
        rw [hidx] at hih
        exact hih

/-- The loop over a completed prefix followed by one more element. -/
theorem initLoop_snoc (h : Env) (pre : List Int) (id : Int) (st0 st : InitState)
    (hl : initLoop h 0 pre st0 = (none, st)) :
    initLoop h 0 (pre ++ [id]) st0 = initLoop h pre.length [id] st := by
  rw [initLoop_append, hl]
  simp only [Nat.zero_add]

/-- The init loop keeps every entry of the table stack-consistent when each initializer
call it makes, if it returns without error, returns a value of the five kinds.  The
calls are named by the state `st` in which the loop has completed the elements `pre`
before the element `id`. -/
theorem initLoop_consistent_calls (h : Env) (st0 : InitState) (all : List Int)
    (hk : ∀ (pre : List Int) (id : Int) (post : List Int) (st : InitState),
      all = pre ++ id :: post → pre ≠ [] → initLoop h 0 pre st0 = (none, st) →
      isSlot h (wrapInt32 (id - st.iotaShift)) = false →
      (h.RuntimeRun st.vm (initOffset st.vm id)).2 = none →
      isConstKind (h.RuntimeRun st.vm (initOffset st.vm id)).1 = true) :
    ∀ (post pre : List Int) (st : InitState), all = pre ++ post →
      initLoop h 0 pre st0 = (none, st) →
      (∀ j c, st.vm.Consts j = some c → c.stackConsistent = true) →
      ∀ j c, (initLoop h pre.length post st).2.vm.Consts j = some c →
        c.stackConsistent = true := by
  intro post
  induction post with
  | nil => intro pre st _ _ hinv j c hc; exact hinv j c hc
  | cons id rest ih =>
    intro pre st hall hpre hinv
    have hall2 : all = (pre ++ [id]) ++ rest := by
      rw [hall, List.append_assoc]
      rfl
    have hlen : (pre ++ [id]).length = pre.length + 1 := by simp
    have hset : ∀ c0 : Const, c0.stackConsistent = true →
        ∀ j c, (st.vm.Consts.set id c0) j = some c → c.stackConsistent = true := by
      intro c0 hc0 j c hc
      simp only [ConstTable.set] at hc
      split_ifs at hc
      · cases hc
        exact hc0
      · exact hinv j c hc
    by_cases hi : pre.length = 0
    · have hnil : pre = [] := List.length_eq_zero.mp hi
      subst hnil
      have hstep : initLoop h 0 ([] ++ [id]) st0 = (none, { st with
          iotaShift := id
          vm := { st.vm with
            Consts := st.vm.Consts.set id ⟨core.TYPEINT, some (Value.int64 0)⟩ } }) := by
        rw [initLoop_snoc h [] id st0 st hpre]
        simp only [List.length_nil, initLoop, initElem_zero]
      have hr := ih ([] ++ [id]) _ hall2 hstep (hset _ stackConsistent_base)
      simp only [List.length_nil, initLoop, initElem_zero]
      exact hr
    · rw [initLoop_cons h pre.length hi]
      split_ifs with hs
      · have hstep : initLoop h 0 (pre ++ [id]) st0 = (none, { st with vm := { st.vm with
            Consts := st.vm.Consts.set id
              (slotConst h st.vm (wrapInt32 (id - st.iotaShift))) } }) := by
          rw [initLoop_snoc h pre id st0 st hpre, initLoop_cons h pre.length hi, if_pos hs]
          rfl
        have hr := ih (pre ++ [id]) _ hall2 hstep (hset _ (stackConsistent_slotConst h _ _))
        rw [hlen] at hr
        exact hr
      · have hs2 : isSlot h (wrapInt32 (id - st.iotaShift)) = false := by simpa using hs
        have hne : pre ≠ [] := fun hp => hi (by rw [hp]; rfl)
        cases he : (h.RuntimeRun st.vm (initOffset st.vm id)).2 with
        | some e => exact hinv
        | none =>
          have hkind := hk pre id rest st hall hne hpre hs2 he
          have hstep : initLoop h 0 (pre ++ [id]) st0 = (none, { st with
              vm := { st.vm with
                Consts := st.vm.Consts.set id (constOfValue (h.RuntimeRun st.vm (initOffset st.vm id)).1) }
              trace := st.trace ++ [Event.runConsts id (initOffset st.vm id) none] }) := by
            rw [initLoop_snoc h pre id st0 st hpre, initLoop_cons h pre.length hi, if_neg hs, he]
            rfl
          have hr := ih (pre ++ [id]) _ hall2 hstep
            (hset _ (stackConsistent_constOfValue _ hkind))
          rw [hlen] at hr
          exact hr

/-- After the first element the loop never assigns `iotaShift`. -/
theorem initLoop_shift (h : Env) (ids : List Int) :
    ∀ (i : Nat) (st : InitState), i ≠ 0 →
      (initLoop h i ids st).2.iotaShift = st.iotaShift := by
  induction ids with
  | nil => intro i st _; rfl
  | cons id rest ih =>
    intro i st hi
    rw [initLoop_cons h i hi]
    split_ifs
    · exact ih (i + 1) _ (Nat.succ_ne_zero i)
    · split
      · rfl
      · exact ih (i + 1) _ (Nat.succ_ne_zero i)

/-- A completed loop over a non-empty prefix has the first element as `iotaShift`. -/
theorem initLoop_start_shift (h : Env) (base : Int) (mid : List Int) (vm : VM)
    (tr : List Event) (st : InitState)
    (hl : initLoop h 0 (base :: mid) ⟨0, vm, tr⟩ = (none, st)) : st.iotaShift = base := by
  rw [initLoop_start] at hl
  have hsh := initLoop_shift h mid 1
    ⟨base, { vm with Consts := vm.Consts.set base ⟨core.TYPEINT, some (Value.int64 0)⟩ }, tr⟩
    Nat.one_ne_zero
  rw [hl] at hsh
  exact hsh

/-! ## Claims -/

/-- C1: for a non-nil image and any settings, `Run` returns at the checksum check, with a
nil result and the CRC error, if and only if the image's `CRCStdlib` differs from the
host's or its `CRCCustom` is nonzero and differs from the host's; an image with
`CRCCustom = 0` and a matching `CRCStdlib` passes the check for every host. -/
theorem Run_crc_rejection_iff (h : Env) (exec : core.Exec) (settings : Settings)
    (os : StdHandles) :
    ((Run h (some exec) settings os).ret = ReturnSite.crc ↔
      (exec.CRCStdlib ≠ h.CRCStdlib ∨ (exec.CRCCustom ≠ 0 ∧ exec.CRCCustom ≠ h.CRCCustom))) ∧
    ((Run h (some exec) settings os).ret = ReturnSite.crc →
      (Run h (some exec) settings os).result = none ∧
      (Run h (some exec) settings os).err = some (GoError.errorf (h.ErrorText ErrID.ErrCRC))) ∧
    (exec.CRCCustom = 0 → exec.CRCStdlib = h.CRCStdlib →
      (Run h (some exec) settings os).ret ≠ ReturnSite.crc) := by
  have key : (Run h (some exec) settings os).ret = ReturnSite.crc ↔ crcMismatch h exec = true := by
    unfold Run
    dsimp only
    by_cases hc : crcMismatch h exec = true
    · simp [hc]
    · simp only [hc, if_false, iff_false, Bool.false_eq_true]
      split
      · simp
      · split
        · simp
        · simp [runRoot]
  refine ⟨key.trans (crcMismatch_iff h exec), ?_, ?_⟩
  · intro hret
    have hc := key.mp hret
    simp [Run, hc]
  · intro h0 h1 hret
    have hc := (crcMismatch_iff h exec).mp (key.mp hret)
    rcases hc with hc | hc
    · exact hc h1
    · exact hc.1 h0

/-- C2, evaluated where it fails: with `settings.Stdout` overriding the handle and an
image whose second init element has a failing initializer, `Run` returns from inside
the init loop and `os.Stdout` is still the override `9`, not the previous handle `1`. -/
theorem Run_const_failure_keeps_override :
    (Run envFailing (some (execOf [0, 100] 11 22)) { settingsZero with Stdout := some 9 }
        osDefault).ret = ReturnSite.constInit ∧
    (Run envFailing (some (execOf [0, 100] 11 22)) { settingsZero with Stdout := some 9 }
        osDefault).err = some (GoError.runtime ⟨5, "divide by zero"⟩) ∧
    (Run envFailing (some (execOf [0, 100] 11 22)) { settingsZero with Stdout := some 9 }
        osDefault).os.Stdout = some 9 ∧
    osDefault.Stdout = some 1 := by
  decide

/-- C3: when `Run` rejects the image at load time (nil image, or checksum mismatch) it
returns a nil result with the corresponding error and has done nothing else: the call
log is empty (no initializer run, no root context started), no VM and so no constants
table exists, and the process handles are the ones it was entered with. -/
theorem Run_load_rejection_no_effect (h : Env) (exec : Option core.Exec) (settings : Settings)
    (os : StdHandles)
    (hrej : ∀ e, exec = some e →
      (e.CRCStdlib ≠ h.CRCStdlib ∨ (e.CRCCustom ≠ 0 ∧ e.CRCCustom ≠ h.CRCCustom))) :
    (Run h exec settings os).result = none ∧
    (Run h exec settings os).err =
      some (GoError.errorf (h.ErrorText (if exec.isNone then ErrID.ErrNotRun else ErrID.ErrCRC))) ∧
    (Run h exec settings os).trace = [] ∧
    (Run h exec settings os).vm.isNone = true ∧
    (Run h exec settings os).os = os := by
  cases exec with
  | none => simp [Run]
  | some e =>
    have hc : crcMismatch h e = true := (crcMismatch_iff h e).mpr (hrej e rfl)
    simp [Run, hc]

theorem Run_load_rejection_no_effect_witness :
    (∀ e, some (execOf [0, 100] 12 0) = some e →
      (e.CRCStdlib ≠ envQuiet.CRCStdlib ∨ (e.CRCCustom ≠ 0 ∧ e.CRCCustom ≠ envQuiet.CRCCustom))) ∧
    (Run envQuiet (some (execOf [0, 100] 12 0)) settingsZero osDefault).trace = [] ∧
    (Run envQuiet (some (execOf [0, 100] 12 0)) settingsZero osDefault).os = osDefault :=
  have hrej : ∀ e, some (execOf [0, 100] 12 0) = some e →
      (e.CRCStdlib ≠ envQuiet.CRCStdlib ∨ (e.CRCCustom ≠ 0 ∧ e.CRCCustom ≠ envQuiet.CRCCustom)) := by
    intro e he
    cases he
    exact Or.inl (by decide)
  ⟨hrej,
    (Run_load_rejection_no_effect envQuiet (some (execOf [0, 100] 12 0)) settingsZero osDefault
      hrej).2.2.1,
    (Run_load_rejection_no_effect envQuiet (some (execOf [0, 100] 12 0)) settingsZero osDefault
      hrej).2.2.2.2⟩

/-- C4: the effective cycle cap is `settings.Cycle` when nonzero and 16,000,000 when zero,
the effective depth cap is `settings.Depth` when nonzero and 1,000 when zero; both are
nonzero, no other field of the settings changes, and the VM that `Run` builds carries
exactly these effective settings. -/
theorem applyDefaults_caps (s : Settings) (h : Env) (exec : core.Exec) (os : StdHandles) :
    (applyDefaults s).Cycle = (if s.Cycle = 0 then 16000000 else s.Cycle) ∧
    (applyDefaults s).Depth = (if s.Depth = 0 then 1000 else s.Depth) ∧
    (applyDefaults s).Cycle ≠ 0 ∧ (applyDefaults s).Depth ≠ 0 ∧
    applyDefaults s =
      { s with Cycle := (applyDefaults s).Cycle, Depth := (applyDefaults s).Depth } ∧
    (∀ vm, (Run h (some exec) s os).vm = some vm →
      vm.Settings = applyDefaults (playgroundInit h s).1) := by
  refine ⟨applyDefaults_Cycle s, applyDefaults_Depth s, ?_, ?_, ?_, ?_⟩
  · rw [applyDefaults_Cycle]
    split_ifs with hz
    · decide
    · exact hz
  · rw [applyDefaults_Depth]
    split_ifs with hz
    · decide
    · exact hz
  · unfold applyDefaults
    dsimp only
    split_ifs <;> rfl
  · intro vm hvm
    exact (Run_vm_frame h exec s os vm hvm).1

/-- C5 (as stated, refuted): with `Init = [5, 5]` initialization completes, yet the table
maps the first init element `5` to the string left by the initializer that was run for
the second element, not to the integer `0`. -/
theorem Run_duplicate_base_overwritten :
    (execOf [5, 5] 11 22).Init ≠ [] ∧
    (Run envStr (some (execOf [5, 5] 11 22)) settingsZero osDefault).ret = ReturnSite.done ∧
    (Run envStr (some (execOf [5, 5] 11 22)) settingsZero osDefault).err = none ∧
    ((Run envStr (some (execOf [5, 5] 11 22)) settingsZero osDefault).vm.bind
      (fun vm => vm.Consts 5)) = some ⟨core.TYPESTR, some (Value.string "x")⟩ ∧
    ((Run envStr (some (execOf [5, 5] 11 22)) settingsZero osDefault).vm.bind
      (fun vm => vm.Consts 5)) ≠ some ⟨core.TYPEINT, some (Value.int64 0)⟩ ∧
    Event.runConsts 5 0 none ∈
      (Run envStr (some (execOf [5, 5] 11 22)) settingsZero osDefault).trace := by
  decide

/-- C5 (amended): for an image whose init sequence is `base :: rest` with `base` not
occurring again in `rest`, when `Run` completes the initialization the constants table
maps `base` to the integer `0` with tag `TYPEINT`, and no initializer was run for
`base`. -/
theorem Run_iota_base_const (h : Env) (exec : core.Exec) (settings : Settings)
    (os : StdHandles) (base : Int) (rest : List Int)
    (hinit : exec.Init = base :: rest) (hnd : base ∉ rest)
    (hret : (Run h (some exec) settings os).ret = ReturnSite.done) :
    (∃ vm, (Run h (some exec) settings os).vm = some vm ∧
      vm.Consts base = some ⟨core.TYPEINT, some (Value.int64 0)⟩) ∧
    ∀ off err, Event.runConsts base off err ∉ (Run h (some exec) settings os).trace := by
  obtain ⟨st, hl, hrun⟩ := Run_done_inv h exec settings os hret
  rw [hinit, initLoop_start] at hl
  constructor
  · refine ⟨st.vm, by rw [hrun]; rfl, ?_⟩
    rw [initLoop_other_eq h rest base 1 _ st none Nat.one_ne_zero hnd hl]
    simp [ConstTable.set]
  · intro off err hmem
    obtain ⟨evs, ht, hev⟩ := initLoop_trace h rest 1
      ⟨base, { newVM exec (playgroundInit h settings).1 with
        Consts := (newVM exec (playgroundInit h settings).1).Consts.set base
          ⟨core.TYPEINT, some (Value.int64 0)⟩ }, (playgroundInit h settings).2.2⟩ Nat.one_ne_zero
    rw [hl] at ht
    obtain ⟨tail, htr, htail⟩ := runRoot_trace h st.vm
      (savedHandles (applyDefaults (playgroundInit h settings).1) os)
      (installHandles (applyDefaults (playgroundInit h settings).1) os) st.trace
    rw [hrun, htr] at hmem
    dsimp only at ht
    rw [ht] at hmem
    simp only [List.mem_append, List.mem_cons] at hmem
    rcases hmem with (hm | hm) | hm | hm
    · have := playgroundInit_trace h settings _ hm
      cases this
    · obtain ⟨id, hid, _, off1, err1, heq⟩ := hev _ hm
      cases heq
      exact hnd hid
    · cases hm
    · rcases htail _ hm with hc | hc <;> cases hc

theorem Run_iota_base_const_witness :
    (execOf [5, 9] 11 22).Init = 5 :: [9] ∧ (5 : Int) ∉ [(9 : Int)] ∧
    (Run envStr (some (execOf [5, 9] 11 22)) settingsZero osDefault).ret = ReturnSite.done ∧
    (∃ vm, (Run envStr (some (execOf [5, 9] 11 22)) settingsZero osDefault).vm = some vm ∧
      vm.Consts 5 = some ⟨core.TYPEINT, some (Value.int64 0)⟩) ∧
    ∀ off err, Event.runConsts 5 off err ∉
      (Run envStr (some (execOf [5, 9] 11 22)) settingsZero osDefault).trace :=
  ⟨rfl, by decide, by decide,
    Run_iota_base_const envStr (execOf [5, 9] 11 22) settingsZero osDefault 5 [9] rfl
      (by decide) (by decide)⟩

/-- C6: for an init element `cid` after the first, with `k = cid - base` (in `int32`):
no initializer is run for `cid` when `k` is a well-known slot; the loop body stores
`cid` as an integer (`TYPEINT`) holding the VM's depth cap when `k` is the depth-limit
slot, as an integer (`TYPEINT`) converted from the VM's cycle cap when `k` is the
cycle-limit slot, and as a string (`TYPESTR`) holding the script path when `k` is the
script-path slot; a completed run has exactly these entries in its table, and the caps
used are the effective ones after defaults (depth reads 1,000 when it was 0). The three
slot identifiers are distinct, as the `case` labels of one Go switch must be. -/
theorem Run_well_known_slots (h : Env) (exec : core.Exec) (settings : Settings)
    (os : StdHandles) (base : Int) (rest : List Int) (cid : Int)
    (hd : h.ConstDepthID ≠ h.ConstCycleID ∧ h.ConstDepthID ≠ h.ConstScriptID ∧
      h.ConstCycleID ≠ h.ConstScriptID)
    (hinit : exec.Init = base :: rest) (hcid : cid ∈ rest) :
    ((wrapInt32 (cid - base) = h.ConstDepthID ∨ wrapInt32 (cid - base) = h.ConstCycleID ∨
        wrapInt32 (cid - base) = h.ConstScriptID) →
      ∀ off err, Event.runConsts cid off err ∉ (Run h (some exec) settings os).trace) ∧
    (∀ (i : Nat) (st : InitState), i ≠ 0 → st.iotaShift = base →
      (wrapInt32 (cid - base) = h.ConstDepthID →
        initElem h i cid st = (none, { st with vm := { st.vm with
          Consts := st.vm.Consts.set cid
            ⟨core.TYPEINT, some (Value.int64 (toInt64 st.vm.Settings.Depth))⟩ } })) ∧
      (wrapInt32 (cid - base) = h.ConstCycleID →
        initElem h i cid st = (none, { st with vm := { st.vm with
          Consts := st.vm.Consts.set cid
            ⟨core.TYPEINT, some (Value.int64 (toInt64 st.vm.Settings.Cycle))⟩ } })) ∧
      (wrapInt32 (cid - base) = h.ConstScriptID →
        initElem h i cid st = (none, { st with vm := { st.vm with
          Consts := st.vm.Consts.set cid
            ⟨core.TYPESTR, some (Value.string st.vm.Exec.Path)⟩ } }))) ∧
    ((Run h (some exec) settings os).ret = ReturnSite.done →
      ∃ vm, (Run h (some exec) settings os).vm = some vm ∧
        vm.Settings = applyDefaults (playgroundInit h settings).1 ∧
        (wrapInt32 (cid - base) = h.ConstDepthID →
          vm.Consts cid = some ⟨core.TYPEINT, some (Value.int64 (toInt64 vm.Settings.Depth))⟩) ∧
        (wrapInt32 (cid - base) = h.ConstCycleID →
          vm.Consts cid = some ⟨core.TYPEINT, some (Value.int64 (toInt64 vm.Settings.Cycle))⟩) ∧
        (wrapInt32 (cid - base) = h.ConstScriptID →
          vm.Consts cid = some ⟨core.TYPESTR, some (Value.string exec.Path)⟩)) ∧
    ((playgroundInit h settings).1.Depth = 0 →
      toInt64 (applyDefaults (playgroundInit h settings).1).Depth = 1000) ∧
    (∀ d : Nat, d < 4294967296 → toInt64 d = (d : Int)) := by
  refine ⟨?_, ?_, ?_, ?_, ?_⟩
  · intro hk off err hmem
    obtain ⟨base1, rest1, hinit1, _, hns⟩ :=
      Run_trace_runConsts h exec settings os cid off err hmem
    rw [hinit] at hinit1
    cases hinit1
    rw [isSlot_of_eq h _ hk] at hns
    cases hns
  · intro i st hi hsh
    subst hsh
    refine ⟨?_, ?_, ?_⟩
    · intro hk
      rw [initElem_slot h i hi cid st (isSlot_of_eq h _ (Or.inl hk)), slotConst_depth h _ _ hk]
    · intro hk
      rw [initElem_slot h i hi cid st (isSlot_of_eq h _ (Or.inr (Or.inl hk))),
        slotConst_cycle h _ _ hd.1 hk]
    · intro hk
      rw [initElem_slot h i hi cid st (isSlot_of_eq h _ (Or.inr (Or.inr hk))),
        slotConst_script h _ _ hd.2.1 hd.2.2 hk]
  · intro hret
    by_cases hs : isSlot h (wrapInt32 (cid - base)) = true
    · obtain ⟨vm, hvm, hS, hE, hc⟩ :=
        Run_done_slot h exec settings os base rest cid hinit hcid hs hret
      refine ⟨vm, hvm, hS, ?_, ?_, ?_⟩
      · intro hk
        rw [hc, slotConst_depth h _ _ hk]
      · intro hk
        rw [hc, slotConst_cycle h _ _ hd.1 hk]
      · intro hk
        rw [hc, slotConst_script h _ _ hd.2.1 hd.2.2 hk, hE]
    · obtain ⟨st, _, hrun⟩ := Run_done_inv h exec settings os hret
      have hvm : (Run h (some exec) settings os).vm = some st.vm := by rw [hrun]; rfl
      refine ⟨st.vm, hvm, (Run_vm_frame h exec settings os st.vm hvm).1, ?_, ?_, ?_⟩
      · intro hk; exact absurd (isSlot_of_eq h _ (Or.inl hk)) hs
      · intro hk; exact absurd (isSlot_of_eq h _ (Or.inr (Or.inl hk))) hs
      · intro hk; exact absurd (isSlot_of_eq h _ (Or.inr (Or.inr hk))) hs
  · intro h0
    rw [applyDefaults_Depth, if_pos h0]
    decide
  · intro d hd1
    unfold toInt64
    have h1 : d % 18446744073709551616 = d := Nat.mod_eq_of_lt (by omega)
    rw [h1, if_pos (by omega)]

theorem Run_well_known_slots_witness :
    (envQuiet.ConstDepthID ≠ envQuiet.ConstCycleID ∧
      envQuiet.ConstDepthID ≠ envQuiet.ConstScriptID ∧
      envQuiet.ConstCycleID ≠ envQuiet.ConstScriptID) ∧
    (execOf [10, 11, 12, 13] 11 22).Init = 10 :: [11, 12, 13] ∧ (11 : Int) ∈ [(11 : Int), 12, 13] ∧
    ((Run envQuiet (some (execOf [10, 11, 12, 13] 11 22)) settingsZero osDefault).ret =
        ReturnSite.done →
      ∃ vm, (Run envQuiet (some (execOf [10, 11, 12, 13] 11 22)) settingsZero osDefault).vm =
          some vm ∧
        vm.Settings = applyDefaults (playgroundInit envQuiet settingsZero).1 ∧
        (wrapInt32 (11 - 10) = envQuiet.ConstDepthID →
          vm.Consts 11 = some ⟨core.TYPEINT, some (Value.int64 (toInt64 vm.Settings.Depth))⟩) ∧
        (wrapInt32 (11 - 10) = envQuiet.ConstCycleID →
          vm.Consts 11 = some ⟨core.TYPEINT, some (Value.int64 (toInt64 vm.Settings.Cycle))⟩) ∧
        (wrapInt32 (11 - 10) = envQuiet.ConstScriptID →
          vm.Consts 11 = some ⟨core.TYPESTR,
            some (Value.string (execOf [10, 11, 12, 13] 11 22).Path)⟩)) :=
  ⟨by decide, rfl, by decide,
    (Run_well_known_slots envQuiet (execOf [10, 11, 12, 13] 11 22) settingsZero osDefault
      10 [11, 12, 13] 11 (by decide) rfl (by decide)).2.2.1⟩

/-- C7: for an init element `cid` after the first whose `k = cid - base` is none of the
well-known slots, the loop body runs the initializer at `Funcs[cid]`, returns its error
if it fails and otherwise stores the constant made from the returned value; a completed
run has run it and holds that constant; and the constant made from an integer is the
integer with `TYPEINT`, from a float the float with `TYPEFLOAT`, from a string the string
with `TYPESTR`, from a bool the integer 1 or 0 with `TYPEBOOL`, from a char its code
point as an integer with `TYPECHAR`. -/
theorem Run_initializer_consts (h : Env) (exec : core.Exec) (settings : Settings)
    (os : StdHandles) (base : Int) (rest : List Int) (cid : Int)
    (hinit : exec.Init = base :: rest) (hcid : cid ∈ rest)
    (hk : wrapInt32 (cid - base) ≠ h.ConstDepthID ∧ wrapInt32 (cid - base) ≠ h.ConstCycleID ∧
      wrapInt32 (cid - base) ≠ h.ConstScriptID) :
    (∀ (i : Nat) (st : InitState), i ≠ 0 → st.iotaShift = base →
      initElem h i cid st =
        match (h.RuntimeRun st.vm ((st.vm.Exec.Funcs cid).getD 0)).2 with
        | some e => (some e, { st with
            trace := st.trace ++ [Event.runConsts cid ((st.vm.Exec.Funcs cid).getD 0) (some e)] })
        | none => (none, { st with
            vm := { st.vm with
              Consts := st.vm.Consts.set cid
                (constOfValue (h.RuntimeRun st.vm ((st.vm.Exec.Funcs cid).getD 0)).1) }
            trace := st.trace ++ [Event.runConsts cid ((st.vm.Exec.Funcs cid).getD 0) none] })) ∧
    ((Run h (some exec) settings os).ret = ReturnSite.done →
      ∃ vm vmc : VM, (Run h (some exec) settings os).vm = some vm ∧
        vmc.Settings = vm.Settings ∧ vmc.Exec = exec ∧
        (h.RuntimeRun vmc ((exec.Funcs cid).getD 0)).2 = none ∧
        vm.Consts cid = some (constOfValue (h.RuntimeRun vmc ((exec.Funcs cid).getD 0)).1) ∧
        Event.runConsts cid ((exec.Funcs cid).getD 0) none ∈
          (Run h (some exec) settings os).trace) ∧
    (∀ v, constOfValue (some (Value.int64 v)) = ⟨core.TYPEINT, some (Value.int64 v)⟩) ∧
    (∀ f, constOfValue (some (Value.float64 f)) = ⟨core.TYPEFLOAT, some (Value.float64 f)⟩) ∧
    (∀ t, constOfValue (some (Value.string t)) = ⟨core.TYPESTR, some (Value.string t)⟩) ∧
    constOfValue (some (Value.bool true)) = ⟨core.TYPEBOOL, some (Value.int64 1)⟩ ∧
    constOfValue (some (Value.bool false)) = ⟨core.TYPEBOOL, some (Value.int64 0)⟩ ∧
    (∀ c, constOfValue (some (Value.rune c)) = ⟨core.TYPECHAR, some (Value.int64 c)⟩) := by
  have hs : isSlot h (wrapInt32 (cid - base)) = false := isSlot_false_of_ne h _ hk
  refine ⟨?_, ?_, fun _ => rfl, fun _ => rfl, fun _ => rfl, rfl, rfl, fun _ => rfl⟩
  · intro i st hi hsh
    subst hsh
    cases he : (h.RuntimeRun st.vm ((st.vm.Exec.Funcs cid).getD 0)).2 with
    | none => exact initElem_run_ok h i hi cid st hs he
    | some e => exact initElem_run_err h i hi cid st hs e he
  · intro hret
    exact Run_done_run h exec settings os base rest cid hinit hcid hs hret

theorem Run_initializer_consts_witness :
    (execOf [5, 9] 11 22).Init = 5 :: [9] ∧ (9 : Int) ∈ [(9 : Int)] ∧
    (wrapInt32 (9 - 5) ≠ envStr.ConstDepthID ∧ wrapInt32 (9 - 5) ≠ envStr.ConstCycleID ∧
      wrapInt32 (9 - 5) ≠ envStr.ConstScriptID) ∧
    (Run envStr (some (execOf [5, 9] 11 22)) settingsZero osDefault).ret = ReturnSite.done ∧
    ∃ vm vmc : VM, (Run envStr (some (execOf [5, 9] 11 22)) settingsZero osDefault).vm = some vm ∧
      vmc.Settings = vm.Settings ∧ vmc.Exec = execOf [5, 9] 11 22 ∧
      (envStr.RuntimeRun vmc (((execOf [5, 9] 11 22).Funcs 9).getD 0)).2 = none ∧
      vm.Consts 9 = some (constOfValue
        (envStr.RuntimeRun vmc (((execOf [5, 9] 11 22).Funcs 9).getD 0)).1) ∧
      Event.runConsts 9 (((execOf [5, 9] 11 22).Funcs 9).getD 0) none ∈
        (Run envStr (some (execOf [5, 9] 11 22)) settingsZero osDefault).trace :=
  ⟨rfl, by decide, by decide, by decide,
    (Run_initializer_consts envStr (execOf [5, 9] 11 22) settingsZero osDefault 5 [9] 9 rfl
      (by decide) (by decide)).2.1 (by decide)⟩

/-- C8: if an initializer fails, `Run` returns from inside the init loop with a nil
result and exactly that initializer's error, the failing call is the last call made (so
no later initializer runs) and the root context is never started; a return from inside
the loop always stems from such a failure; and when `Run` reaches the root context, no
initializer has failed, every init element has an entry in the constants table, and the
root context is run on the VM holding that table. -/
theorem Run_initializer_failure (h : Env) (exec : core.Exec) (settings : Settings)
    (os : StdHandles) :
    (∀ id off e, Event.runConsts id off (some e) ∈ (Run h (some exec) settings os).trace →
      (Run h (some exec) settings os).ret = ReturnSite.constInit ∧
      (Run h (some exec) settings os).result = none ∧
      (Run h (some exec) settings os).err = some e ∧
      (∃ evs, (Run h (some exec) settings os).trace = evs ++ [Event.runConsts id off (some e)] ∧
        ∀ ev ∈ evs, ev = Event.InitPlayground ∨ ∃ id1 off1, ev = Event.runConsts id1 off1 none) ∧
      Event.rootRun ∉ (Run h (some exec) settings os).trace) ∧
    ((Run h (some exec) settings os).ret = ReturnSite.constInit →
      ∃ id off e, id ∈ exec.Init ∧
        Event.runConsts id off (some e) ∈ (Run h (some exec) settings os).trace) ∧
    ((Run h (some exec) settings os).ret = ReturnSite.done →
      (∀ id off e, Event.runConsts id off (some e) ∉ (Run h (some exec) settings os).trace) ∧
      ∃ vm, (Run h (some exec) settings os).vm = some vm ∧
        (∀ id ∈ exec.Init, (vm.Consts id).isSome = true) ∧
        Event.rootRun ∈ (Run h (some exec) settings os).trace ∧
        ((Run h (some exec) settings os).result, (Run h (some exec) settings os).err) =
          unwrapExit h (h.RuntimeRun vm 0).1 (drain (h.RuntimeRun vm 0).2 h.ChError)) := by
  have hdone : (Run h (some exec) settings os).ret = ReturnSite.done →
      (∀ id off e, Event.runConsts id off (some e) ∉ (Run h (some exec) settings os).trace) ∧
      ∃ vm, (Run h (some exec) settings os).vm = some vm ∧
        (∀ id ∈ exec.Init, (vm.Consts id).isSome = true) ∧
        Event.rootRun ∈ (Run h (some exec) settings os).trace ∧
        ((Run h (some exec) settings os).result, (Run h (some exec) settings os).err) =
          unwrapExit h (h.RuntimeRun vm 0).1 (drain (h.RuntimeRun vm 0).2 h.ChError) := by
    intro hret
    obtain ⟨st, hl, hrun⟩ := Run_done_inv h exec settings os hret
    obtain ⟨tail, htr, htail⟩ := runRoot_trace h st.vm
      (savedHandles (applyDefaults (playgroundInit h settings).1) os)
      (installHandles (applyDefaults (playgroundInit h settings).1) os) st.trace
    obtain ⟨evs, hst, hev⟩ := initLoop_start_trace_ok h exec.Init _ _ st hl
    refine ⟨?_, st.vm, by rw [hrun]; rfl, initLoop_start_entries h exec.Init _ _ st hl, ?_, ?_⟩
    · intro id off e hmem
      rw [hrun, htr, hst] at hmem
      simp only [List.mem_append, List.mem_cons] at hmem
      rcases hmem with (hm | hm) | hm | hm
      · have := playgroundInit_trace h settings _ hm
        cases this
      · obtain ⟨id1, off1, heq⟩ := hev _ hm
        cases heq
      · cases hm
      · rcases htail _ hm with hc | hc <;> cases hc
    · rw [hrun, htr]
      simp
    · rw [hrun]
      rfl
  refine ⟨?_, ?_, hdone⟩
  · intro id off e hmem
    by_cases h1 : (Run h (some exec) settings os).ret = ReturnSite.constInit
    · obtain ⟨e1, st, hl, hres, herr, htr, _⟩ := Run_constInit_inv h exec settings os h1
      obtain ⟨evs, id1, off1, _, hst, hev⟩ := initLoop_start_trace_err h exec.Init _ _ st e1 hl
      have hall : ∀ ev ∈ (playgroundInit h settings).2.2 ++ evs,
          ev = Event.InitPlayground ∨ ∃ id2 off2, ev = Event.runConsts id2 off2 none := by
        intro ev hm
        rcases List.mem_append.mp hm with hm | hm
        · exact Or.inl (playgroundInit_trace h settings _ hm)
        · exact Or.inr (hev _ hm)
      rw [htr, hst] at hmem
      have hlast : Event.runConsts id off (some e) = Event.runConsts id1 off1 (some e1) := by
        rcases List.mem_append.mp hmem with hm | hm
        · rcases hall _ hm with hc | ⟨id2, off2, hc⟩ <;> cases hc
        · exact List.mem_singleton.mp hm
      cases hlast
      refine ⟨h1, hres, herr, ⟨(playgroundInit h settings).2.2 ++ evs, ?_, hall⟩, ?_⟩
      · rw [htr, hst]
      · rw [htr, hst]
        intro hm
        rcases List.mem_append.mp hm with hm | hm
        · rcases hall _ hm with hc | ⟨id2, off2, hc⟩ <;> cases hc
        · have := List.mem_singleton.mp hm
          cases this
    · by_cases h2 : (Run h (some exec) settings os).ret = ReturnSite.done
      · exact absurd hmem ((hdone h2).1 id off e)
      · have := Run_trace_early h exec settings os h1 h2 _ hmem
        cases this
  · intro hret
    obtain ⟨e1, st, hl, _, _, htr, _⟩ := Run_constInit_inv h exec settings os hret
    obtain ⟨evs, id1, off1, hid, hst, _⟩ := initLoop_start_trace_err h exec.Init _ _ st e1 hl
    refine ⟨id1, off1, e1, hid, ?_⟩
    rw [htr, hst]
    simp

/-- C9: in a run that reached the root context, let the final error be the root's error
or, failing that, the first error drained from `vm.ChError`.  If it is a runtime error
whose message is the explicit-exit message, `Run` returns that error's `ID` as the result
and a nil error; for every other final error, or none, `Run` returns the root context's
result and the final error unchanged. -/
theorem Run_exit_unwrap (h : Env) (exec : core.Exec) (settings : Settings) (os : StdHandles)
    (hret : (Run h (some exec) settings os).ret = ReturnSite.done) :
    ∃ vm, (Run h (some exec) settings os).vm = some vm ∧
      (∀ e, drain (h.RuntimeRun vm 0).2 h.ChError = some (GoError.runtime e) →
        e.Message = h.ErrorText ErrID.ErrExit →
        (Run h (some exec) settings os).result = some (Value.int e.ID) ∧
        (Run h (some exec) settings os).err = none) ∧
      ((∀ e, drain (h.RuntimeRun vm 0).2 h.ChError = some (GoError.runtime e) →
          e.Message ≠ h.ErrorText ErrID.ErrExit) →
        (Run h (some exec) settings os).result = (h.RuntimeRun vm 0).1 ∧
        (Run h (some exec) settings os).err = drain (h.RuntimeRun vm 0).2 h.ChError) := by
  obtain ⟨vm, hvm, hres, herr⟩ := Run_done_result h exec settings os hret
  refine ⟨vm, hvm, ?_, ?_⟩
  · intro e hfin hmsg
    rw [hres, herr, hfin]
    simp [unwrapExit, hmsg]
  · intro hne
    rw [hres, herr]
    cases hfin : drain (h.RuntimeRun vm 0).2 h.ChError with
    | none => simp [unwrapExit]
    | some ge =>
      cases ge with
      | errorf t => simp [unwrapExit]
      | other d => simp [unwrapExit]
      | runtime e =>
        have := hne e hfin
        simp [unwrapExit, this]

theorem Run_exit_unwrap_witness :
    (Run envExit (some (execOf [0] 11 22)) settingsZero osDefault).ret = ReturnSite.done ∧
    ∃ vm, (Run envExit (some (execOf [0] 11 22)) settingsZero osDefault).vm = some vm ∧
      (∀ e, drain (envExit.RuntimeRun vm 0).2 envExit.ChError = some (GoError.runtime e) →
        e.Message = envExit.ErrorText ErrID.ErrExit →
        (Run envExit (some (execOf [0] 11 22)) settingsZero osDefault).result =
          some (Value.int e.ID) ∧
        (Run envExit (some (execOf [0] 11 22)) settingsZero osDefault).err = none) ∧
      ((∀ e, drain (envExit.RuntimeRun vm 0).2 envExit.ChError = some (GoError.runtime e) →
          e.Message ≠ envExit.ErrorText ErrID.ErrExit) →
        (Run envExit (some (execOf [0] 11 22)) settingsZero osDefault).result =
          (envExit.RuntimeRun vm 0).1 ∧
        (Run envExit (some (execOf [0] 11 22)) settingsZero osDefault).err =
          drain (envExit.RuntimeRun vm 0).2 envExit.ChError) :=
  ⟨by decide, Run_exit_unwrap envExit (execOf [0] 11 22) settingsZero osDefault (by decide)⟩

/-- C10 (as stated, refuted): the root context's own error is non-nil, an explicit-exit
runtime error, and the error `Run` reports is nil, not the root's error. -/
theorem Run_reports_nil_for_root_exit :
    (Run envExit (some (execOf [0] 11 22)) settingsZero osDefault).ret = ReturnSite.done ∧
    (∀ vm, (envExit.RuntimeRun vm 0).2 = some (GoError.runtime ⟨3, "exit"⟩)) ∧
    (Run envExit (some (execOf [0] 11 22)) settingsZero osDefault).err = none ∧
    (Run envExit (some (execOf [0] 11 22)) settingsZero osDefault).err ≠
      some (GoError.runtime ⟨3, "exit"⟩) ∧
    (Run envExit (some (execOf [0] 11 22)) settingsZero osDefault).result =
      some (Value.int 3) :=
  ⟨by decide, fun _ => rfl, by decide, by decide, by decide⟩

/-- C10 (amended): with the values drained from `vm.ChError` as a sequence, the final
error of the run is the root context's own error when that is non-nil and otherwise the
first error of the sequence (nil when there is none); a later error never replaces an
earlier one; and `Run` reports this final error unless it is an explicit-exit runtime
error. -/
theorem Run_final_error (h : Env) (exec : core.Exec) (settings : Settings) (os : StdHandles) :
    (∀ (e : GoError) (errs : List (Option GoError)), drain (some e) errs = some e) ∧
    (∀ errs : List GoError, drain none (errs.map some) = errs.head?) ∧
    (∀ errs : List (Option GoError), drain none errs = (errs.filterMap id).head?) ∧
    (∀ (r : Option GoError) (errs1 errs2 : List (Option GoError)) (e : GoError),
      drain r errs1 = some e → drain r (errs1 ++ errs2) = some e) ∧
    ((Run h (some exec) settings os).ret = ReturnSite.done →
      ∃ vm, (Run h (some exec) settings os).vm = some vm ∧
        ((∀ e, drain (h.RuntimeRun vm 0).2 h.ChError = some (GoError.runtime e) →
            e.Message ≠ h.ErrorText ErrID.ErrExit) →
          (Run h (some exec) settings os).err =
            match (h.RuntimeRun vm 0).2 with
            | some e => some e
            | none => (h.ChError.filterMap id).head?)) := by
  refine ⟨drain_some, ?_, ?_, ?_, ?_⟩
  · intro errs
    rw [drain_eq]
    simp
  · intro errs
    rw [drain_eq]
  · intro r errs1 errs2 e hd
    rw [drain_append, hd, drain_some]
  · intro hret
    obtain ⟨vm, hvm, _, herr⟩ := Run_done_result h exec settings os hret
    refine ⟨vm, hvm, ?_⟩
    intro hne
    rw [herr, ← drain_eq]
    cases hfin : drain (h.RuntimeRun vm 0).2 h.ChError with
    | none => simp [unwrapExit]
    | some ge =>
      cases ge with
      | errorf t => simp [unwrapExit]
      | other d => simp [unwrapExit]
      | runtime e =>
        have := hne e hfin
        simp [unwrapExit, this]

/-- C11: every type tag of `core` is below `2^16`; its low nibble is the stack selector of
its kind (`TYPENONE`: `STACKNONE` = 0; `TYPEINT`, `TYPEBOOL`, `TYPECHAR`: `STACKINT` = 1;
`TYPESTR`: `STACKSTR` = 2; `TYPEFLOAT`: `STACKFLOAT` = 3; the nine aggregate and reference
kinds: `STACKANY` = 4); and the fifteen tags are pairwise distinct. -/
theorem type_tags_select_stacks :
    (∀ t ∈ core.typeTags, t < 65536) ∧
    core.typeTags.length = 15 ∧
    (core.STACKNONE = 0 ∧ core.STACKINT = 1 ∧ core.STACKSTR = 2 ∧ core.STACKFLOAT = 3 ∧
      core.STACKANY = 4) ∧
    core.TYPENONE &&& 0xF = core.STACKNONE ∧
    (core.TYPEINT &&& 0xF = core.STACKINT ∧ core.TYPEBOOL &&& 0xF = core.STACKINT ∧
      core.TYPECHAR &&& 0xF = core.STACKINT) ∧
    core.TYPESTR &&& 0xF = core.STACKSTR ∧
    core.TYPEFLOAT &&& 0xF = core.STACKFLOAT ∧
    (core.TYPEARR &&& 0xF = core.STACKANY ∧ core.TYPERANGE &&& 0xF = core.STACKANY ∧
      core.TYPEMAP &&& 0xF = core.STACKANY ∧ core.TYPEBUF &&& 0xF = core.STACKANY ∧
      core.TYPEFUNC &&& 0xF = core.STACKANY ∧ core.TYPEERROR &&& 0xF = core.STACKANY ∧
      core.TYPESET &&& 0xF = core.STACKANY ∧ core.TYPEOBJ &&& 0xF = core.STACKANY ∧
      core.TYPESTRUCT &&& 0xF = core.STACKANY) ∧
    core.typeTags.Nodup := by
  decide

/-- C16: `MaxºIntInt` is the maximum and `MinºIntInt` the minimum of its two arguments:
each result is one of the arguments, `Max` is at least both and `Min` at most both, both
are commutative and idempotent, and `Min(l, r) + Max(l, r) = l + r`. -/
theorem Max_Min_IntInt (l r : Int) :
    (stdlib.MaxIntInt l r = l ∨ stdlib.MaxIntInt l r = r) ∧
    (stdlib.MinIntInt l r = l ∨ stdlib.MinIntInt l r = r) ∧
    (l ≤ stdlib.MaxIntInt l r ∧ r ≤ stdlib.MaxIntInt l r) ∧
    (stdlib.MinIntInt l r ≤ l ∧ stdlib.MinIntInt l r ≤ r) ∧
    (stdlib.MaxIntInt l r = max l r ∧ stdlib.MinIntInt l r = min l r) ∧
    (stdlib.MaxIntInt l r = stdlib.MaxIntInt r l ∧ stdlib.MinIntInt l r = stdlib.MinIntInt r l) ∧
    (stdlib.MaxIntInt l l = l ∧ stdlib.MinIntInt l l = l) ∧
    stdlib.MinIntInt l r + stdlib.MaxIntInt l r = l + r := by
  simp only [stdlib.MaxIntInt, stdlib.MinIntInt]
  refine ⟨?_, ?_, ?_, ?_, ?_, ?_, ?_, ?_⟩ <;> split_ifs <;> omega

/-- C18, evaluated where it fails: `InitInt` links `AssignBitAndºIntInt` (int &= int) to
`core.ASSIGN + 6`, which is `ASSIGNBITOR` (int |= int), `AssignBitOrºIntInt` to
`core.ASSIGN + 7`, which is `ASSIGNBITXOR`, and `AssignBitXorºIntInt` to `core.ASSIGN + 8`,
which is `ASSIGNBITAND`; the other eight assignment functions are linked to the opcode of
their own operator. -/
theorem InitInt_bitwise_links_shifted :
    (stdlib.linkCode stdlib.IntFunc.AssignBitAndIntInt = some core.ASSIGNBITOR ∧
      stdlib.linkCode stdlib.IntFunc.AssignBitAndIntInt ≠ some core.ASSIGNBITAND) ∧
    (stdlib.linkCode stdlib.IntFunc.AssignBitOrIntInt = some core.ASSIGNBITXOR ∧
      stdlib.linkCode stdlib.IntFunc.AssignBitOrIntInt ≠ some core.ASSIGNBITOR) ∧
    (stdlib.linkCode stdlib.IntFunc.AssignBitXorIntInt = some core.ASSIGNBITAND ∧
      stdlib.linkCode stdlib.IntFunc.AssignBitXorIntInt ≠ some core.ASSIGNBITXOR) ∧
    stdlib.linkCode stdlib.IntFunc.AssignIntInt = some core.ASSIGN ∧
    stdlib.linkCode stdlib.IntFunc.AssignIntChar = some core.ASSIGN ∧
    stdlib.linkCode stdlib.IntFunc.AssignAddIntInt = some core.ASSIGNADD ∧
    stdlib.linkCode stdlib.IntFunc.AssignSubIntInt = some core.ASSIGNSUB ∧
    stdlib.linkCode stdlib.IntFunc.AssignMulIntInt = some core.ASSIGNMUL ∧
    stdlib.linkCode stdlib.IntFunc.AssignDivIntInt = some core.ASSIGNDIV ∧
    stdlib.linkCode stdlib.IntFunc.AssignModIntInt = some core.ASSIGNMOD ∧
    stdlib.linkCode stdlib.IntFunc.AssignLShiftIntInt = some core.ASSIGNLSHIFT ∧
    stdlib.linkCode stdlib.IntFunc.AssignRShiftIntInt = some core.ASSIGNRSHIFT := by
  decide

/-- C12: for an integer target holding `x`, every integer `v` and every operator among
`+ - * / % & | ^ << >>`, the compound-assignment function of `stdlib` does what the
two-step `x = x OP v` does: it fails exactly when `x OP v` fails (division or modulo by
zero, shift by a negative amount), with the error of the same kind and the target
unchanged, and otherwise stores `x OP v` in the target and returns the value it stored. -/
theorem assign_refines_two_step (errorText : core.ErrID → String) (op : stdlib.IntOp)
    (x v : Int) :
    stdlib.assignFunc errorText op (Value.int64 x) v =
      some (stdlib.specTwoStep errorText op x v) ∧
    (∀ k, stdlib.specIntOp op x v = Except.error k →
      stdlib.assignFunc errorText op (Value.int64 x) v =
        some ⟨Value.int64 x, 0, some (GoError.errorf (errorText k))⟩) ∧
    (∀ r, stdlib.specIntOp op x v = Except.ok r →
      stdlib.assignFunc errorText op (Value.int64 x) v = some ⟨Value.int64 r, r, none⟩) ∧
    ((∃ k, stdlib.specIntOp op x v = Except.error k) ↔
      ((op = stdlib.IntOp.div ∨ op = stdlib.IntOp.mod) ∧ v = 0) ∨
      ((op = stdlib.IntOp.lshift ∨ op = stdlib.IntOp.rshift) ∧ v < 0)) := by
  have main : stdlib.assignFunc errorText op (Value.int64 x) v =
      some (stdlib.specTwoStep errorText op x v) := by
    cases op <;>
      simp only [stdlib.assignFunc, stdlib.specTwoStep, stdlib.specIntOp,
        stdlib.AssignAddIntInt, stdlib.AssignSubIntInt, stdlib.AssignMulIntInt,
        stdlib.AssignDivIntInt, stdlib.AssignModIntInt, stdlib.AssignBitAndIntInt,
        stdlib.AssignBitOrIntInt, stdlib.AssignBitXorIntInt, stdlib.AssignLShiftIntInt,
        stdlib.AssignRShiftIntInt, Option.map] <;>
      first
        | rfl
        | (split_ifs <;> rfl)
  refine ⟨main, ?_, ?_, ?_⟩
  · intro k hk
    rw [main, stdlib.specTwoStep, hk]
  · intro r hr
    rw [main, stdlib.specTwoStep, hr]
  · cases op <;> simp only [stdlib.specIntOp] <;> first
      | (split_ifs with hc <;> simp [hc])
      | simp

/-- C13: for 64-bit `x` and `v`, `AssignDivºIntInt` and `AssignModºIntInt` return the
division-by-zero error exactly when `v = 0`, then leaving the target unchanged and
returning 0; for `v ≠ 0` they do not fail and store the quotient truncated toward zero,
respectively the remainder, which has the sign of `x` and is smaller than `v` in absolute
value; for `x = -2^63`, `v = -1` the quotient wraps to `-2^63` and the remainder is 0; and
`(x / v) * v + x % v = x` holds modulo `2^64`, and exactly outside that one case. -/
theorem AssignDiv_Mod_IntInt (errorText : core.ErrID → String) (x v : Int)
    (hx : -9223372036854775808 ≤ x ∧ x < 9223372036854775808)
    (hv : -9223372036854775808 ≤ v ∧ v < 9223372036854775808) :
    (((stdlib.AssignDivIntInt errorText (Value.int64 x) v).bind (fun r => r.err) =
        some (GoError.errorf (errorText core.ErrID.ErrDivZero)) ↔ v = 0) ∧
      ((stdlib.AssignModIntInt errorText (Value.int64 x) v).bind (fun r => r.err) =
        some (GoError.errorf (errorText core.ErrID.ErrDivZero)) ↔ v = 0)) ∧
    (v = 0 →
      stdlib.AssignDivIntInt errorText (Value.int64 x) v =
        some ⟨Value.int64 x, 0, some (GoError.errorf (errorText core.ErrID.ErrDivZero))⟩ ∧
      stdlib.AssignModIntInt errorText (Value.int64 x) v =
        some ⟨Value.int64 x, 0, some (GoError.errorf (errorText core.ErrID.ErrDivZero))⟩) ∧
    (v ≠ 0 →
      stdlib.AssignDivIntInt errorText (Value.int64 x) v =
        some ⟨Value.int64 (stdlib.div64 x v), stdlib.div64 x v, none⟩ ∧
      stdlib.AssignModIntInt errorText (Value.int64 x) v =
        some ⟨Value.int64 (stdlib.mod64 x v), stdlib.mod64 x v, none⟩ ∧
      (-9223372036854775808 ≤ stdlib.div64 x v ∧ stdlib.div64 x v < 9223372036854775808) ∧
      (-9223372036854775808 ≤ stdlib.mod64 x v ∧ stdlib.mod64 x v < 9223372036854775808) ∧
      (x = -9223372036854775808 → v = -1 →
        stdlib.div64 x v = -9223372036854775808 ∧ stdlib.mod64 x v = 0) ∧
      (¬ (x = -9223372036854775808 ∧ v = -1) →
        stdlib.div64 x v = Int.tdiv x v ∧ stdlib.div64 x v * v + stdlib.mod64 x v = x) ∧
      |stdlib.mod64 x v| < |v| ∧
      (0 ≤ x → 0 ≤ stdlib.mod64 x v) ∧ (x ≤ 0 → stdlib.mod64 x v ≤ 0) ∧
      (stdlib.div64 x v * v + stdlib.mod64 x v - x) % 18446744073709551616 = 0) := by
  have hzero : v = 0 →
      stdlib.AssignDivIntInt errorText (Value.int64 x) v =
        some ⟨Value.int64 x, 0, some (GoError.errorf (errorText core.ErrID.ErrDivZero))⟩ ∧
      stdlib.AssignModIntInt errorText (Value.int64 x) v =
        some ⟨Value.int64 x, 0, some (GoError.errorf (errorText core.ErrID.ErrDivZero))⟩ := by
    intro h0
    simp [stdlib.AssignDivIntInt, stdlib.AssignModIntInt, h0]
  have hne : v ≠ 0 →
      stdlib.AssignDivIntInt errorText (Value.int64 x) v =
        some ⟨Value.int64 (stdlib.div64 x v), stdlib.div64 x v, none⟩ ∧
      stdlib.AssignModIntInt errorText (Value.int64 x) v =
        some ⟨Value.int64 (stdlib.mod64 x v), stdlib.mod64 x v, none⟩ := by
    intro h0
    simp [stdlib.AssignDivIntInt, stdlib.AssignModIntInt, h0]
  refine ⟨⟨?_, ?_⟩, hzero, ?_⟩
  · by_cases h0 : v = 0
    · rw [(hzero h0).1]
      simp [h0]
    · rw [(hne h0).1]
      simp [h0]
  · by_cases h0 : v = 0
    · rw [(hzero h0).2]
      simp [h0]
    · rw [(hne h0).2]
      simp [h0]
  · intro h0
    obtain ⟨hq1, hq2, hq3⟩ := tdiv_range x v hx.1 hx.2 h0
    obtain ⟨hr1, hr2, hr3⟩ := tmod_sign_bound x v h0
    have hdm := Int.tdiv_add_tmod' x v
    have hrange := wrapInt64_range (Int.tdiv x v)
    have hreg : ¬ (x = -9223372036854775808 ∧ v = -1) →
        stdlib.div64 x v = Int.tdiv x v := by
      intro hno
      have hlt : Int.tdiv x v < 9223372036854775808 := by
        rcases lt_or_eq_of_le hq2 with hlt | heq
        · exact hlt
        · exact absurd (hq3 heq) hno
      exact wrapInt64_of_range _ hq1 hlt
    have hover : x = -9223372036854775808 → v = -1 →
        stdlib.div64 x v = -9223372036854775808 ∧ stdlib.mod64 x v = 0 := by
      intro h1 h2
      subst h1 h2
      decide
    have hrb : -9223372036854775808 ≤ stdlib.mod64 x v ∧
        stdlib.mod64 x v < 9223372036854775808 := by
      unfold stdlib.mod64
      rcases abs_cases (Int.tmod x v) with ha | ha <;> rcases abs_cases v with hb | hb <;> omega
    refine ⟨(hne h0).1, (hne h0).2, hrange, hrb, hover, ?_, hr3, hr1, hr2, ?_⟩
    · intro hno
      refine ⟨hreg hno, ?_⟩
      rw [hreg hno]
      exact hdm
    · by_cases hc : x = -9223372036854775808 ∧ v = -1
      · obtain ⟨hd, hm⟩ := hover hc.1 hc.2
        rw [hd, hm, hc.1, hc.2]
        decide
      · rw [hreg hc]
        unfold stdlib.mod64
        rw [hdm]
        simp

theorem AssignDiv_Mod_IntInt_witness :
    ((-9223372036854775808 : Int) ≤ -7 ∧ (-7 : Int) < 9223372036854775808) ∧
    ((-9223372036854775808 : Int) ≤ 2 ∧ (2 : Int) < 9223372036854775808) ∧
    stdlib.AssignDivIntInt stdlib.errorTextExample (Value.int64 (-7)) 2 =
      some ⟨Value.int64 (-3), -3, none⟩ ∧
    (stdlib.div64 (-7) 2 * 2 + stdlib.mod64 (-7) 2 - -7) % 18446744073709551616 = 0 :=
  ⟨by decide, by decide, by decide,
    ((AssignDiv_Mod_IntInt stdlib.errorTextExample (-7) 2 (by decide) (by decide)).2.2
      (by decide)).2.2.2.2.2.2.2.2.2⟩

/-- C14: for 64-bit `x` and `v`, `AssignLShiftºIntInt` and `AssignRShiftºIntInt` return the
shift-range error exactly when `v < 0`, leaving the target unchanged; for `v ≥ 0` they
succeed, the left shift storing `x * 2^v` reduced to a signed 64-bit value (0 for every
`v ≥ 64`) and the right shift storing the floor of `x / 2^v` (for `v ≥ 64`: 0 when
`x ≥ 0`, -1 when `x < 0`). -/
theorem AssignShift_IntInt (errorText : core.ErrID → String) (x v : Int)
    (hx : -9223372036854775808 ≤ x ∧ x < 9223372036854775808)
    (hv : -9223372036854775808 ≤ v ∧ v < 9223372036854775808) :
    (((stdlib.AssignLShiftIntInt errorText (Value.int64 x) v).bind (fun r => r.err) =
        some (GoError.errorf (errorText core.ErrID.ErrShift)) ↔ v < 0) ∧
      ((stdlib.AssignRShiftIntInt errorText (Value.int64 x) v).bind (fun r => r.err) =
        some (GoError.errorf (errorText core.ErrID.ErrShift)) ↔ v < 0)) ∧
    (v < 0 →
      stdlib.AssignLShiftIntInt errorText (Value.int64 x) v =
        some ⟨Value.int64 x, 0, some (GoError.errorf (errorText core.ErrID.ErrShift))⟩ ∧
      stdlib.AssignRShiftIntInt errorText (Value.int64 x) v =
        some ⟨Value.int64 x, 0, some (GoError.errorf (errorText core.ErrID.ErrShift))⟩) ∧
    (0 ≤ v →
      stdlib.AssignLShiftIntInt errorText (Value.int64 x) v =
        some ⟨Value.int64 (stdlib.wrapInt64 (x * 2 ^ v.toNat)),
          stdlib.wrapInt64 (x * 2 ^ v.toNat), none⟩ ∧
      stdlib.AssignRShiftIntInt errorText (Value.int64 x) v =
        some ⟨Value.int64 (Int.fdiv x (2 ^ v.toNat)), Int.fdiv x (2 ^ v.toNat), none⟩) ∧
    ((-9223372036854775808 ≤ stdlib.wrapInt64 (x * 2 ^ v.toNat) ∧
        stdlib.wrapInt64 (x * 2 ^ v.toNat) < 9223372036854775808) ∧
      (stdlib.wrapInt64 (x * 2 ^ v.toNat) - x * 2 ^ v.toNat) % 18446744073709551616 = 0) ∧
    (64 ≤ v →
      stdlib.wrapInt64 (x * 2 ^ v.toNat) = 0 ∧
      Int.fdiv x (2 ^ v.toNat) = if x < 0 then -1 else 0) := by
  have hneg : v < 0 →
      stdlib.AssignLShiftIntInt errorText (Value.int64 x) v =
        some ⟨Value.int64 x, 0, some (GoError.errorf (errorText core.ErrID.ErrShift))⟩ ∧
      stdlib.AssignRShiftIntInt errorText (Value.int64 x) v =
        some ⟨Value.int64 x, 0, some (GoError.errorf (errorText core.ErrID.ErrShift))⟩ := by
    intro h0
    simp [stdlib.AssignLShiftIntInt, stdlib.AssignRShiftIntInt, h0]
  have hpos : 0 ≤ v →
      stdlib.AssignLShiftIntInt errorText (Value.int64 x) v =
        some ⟨Value.int64 (stdlib.wrapInt64 (x * 2 ^ v.toNat)),
          stdlib.wrapInt64 (x * 2 ^ v.toNat), none⟩ ∧
      stdlib.AssignRShiftIntInt errorText (Value.int64 x) v =
        some ⟨Value.int64 (Int.fdiv x (2 ^ v.toNat)), Int.fdiv x (2 ^ v.toNat), none⟩ := by
    intro h0
    have hn : ¬ v < 0 := not_lt.mpr h0
    have hu := toUint64_of_nonneg v h0 hv.2
    simp only [stdlib.AssignLShiftIntInt, stdlib.AssignRShiftIntInt, hn, if_false, hu,
      shl64_eq x hx.1 hx.2, shr64_eq]
    exact ⟨trivial, trivial⟩
  refine ⟨⟨?_, ?_⟩, hneg, hpos, ⟨wrapInt64_range _, wrapInt64_sub_emod _⟩, ?_⟩
  · by_cases h0 : v < 0
    · rw [(hneg h0).1]
      simp [h0]
    · rw [(hpos (not_lt.mp h0)).1]
      simp [h0]
  · by_cases h0 : v < 0
    · rw [(hneg h0).2]
      simp [h0]
    · rw [(hpos (not_lt.mp h0)).2]
      simp [h0]
  · intro h64
    have hn : 64 ≤ v.toNat := by omega
    exact ⟨wrapInt64_shift_out x _ hn, fdiv_shift_out x hx.1 hx.2 _ hn⟩

theorem AssignShift_IntInt_witness :
    ((-9223372036854775808 : Int) ≤ -5 ∧ (-5 : Int) < 9223372036854775808) ∧
    ((-9223372036854775808 : Int) ≤ 70 ∧ (70 : Int) < 9223372036854775808) ∧
    (stdlib.wrapInt64 (-5 * 2 ^ (70 : Int).toNat) = 0 ∧
      Int.fdiv (-5) (2 ^ (70 : Int).toNat) = if (-5 : Int) < 0 then -1 else 0) :=
  ⟨by decide, by decide,
    (AssignShift_IntInt stdlib.errorTextExample (-5) 70 (by decide) (by decide)).2.2.2.2
      (by decide)⟩

/-- C15: for a byte target holding `b` (at most 255) and a 64-bit `v`, `AssignAddºIntInt`
fails with the byte-range error exactly when the mathematical sum `b + v` is negative or
above 255, also when the 64-bit addition wraps around; on failure the target is unchanged
and 0 is returned, on success the target holds `b + v` and `b + v` is returned. -/
theorem AssignAdd_byte (errorText : core.ErrID → String) (b : Nat) (v : Int)
    (hb : b ≤ 255) (hv : -9223372036854775808 ≤ v ∧ v < 9223372036854775808) :
    ((stdlib.AssignAddIntInt errorText (Value.uint8 b) v).bind (fun r => r.err) =
        some (GoError.errorf (errorText core.ErrID.ErrByteOut)) ↔
      ((b : Int) + v < 0 ∨ 255 < (b : Int) + v)) ∧
    (((b : Int) + v < 0 ∨ 255 < (b : Int) + v) →
      stdlib.AssignAddIntInt errorText (Value.uint8 b) v =
        some ⟨Value.uint8 b, 0, some (GoError.errorf (errorText core.ErrID.ErrByteOut))⟩) ∧
    ((0 ≤ (b : Int) + v ∧ (b : Int) + v ≤ 255) →
      stdlib.AssignAddIntInt errorText (Value.uint8 b) v =
        some ⟨Value.int64 ((b : Int) + v), (b : Int) + v, none⟩) := by
  have heq := AssignAddIntInt_uint8 errorText b v hb hv
  refine ⟨AssignAddIntInt_uint8_err errorText b v hb hv, ?_, ?_⟩
  · intro h
    rw [heq, if_pos h]
  · intro h
    have hn : ¬ ((b : Int) + v < 0 ∨ 255 < (b : Int) + v) := by omega
    rw [heq, if_neg hn]

theorem AssignAdd_byte_witness :
    (250 : Nat) ≤ 255 ∧
    ((-9223372036854775808 : Int) ≤ 6 ∧ (6 : Int) < 9223372036854775808) ∧
    stdlib.AssignAddIntInt stdlib.errorTextExample (Value.uint8 250) 6 =
      some ⟨Value.uint8 250, 0, some (GoError.errorf "byte out of range")⟩ :=
  ⟨by decide, by decide,
    (AssignAdd_byte stdlib.errorTextExample 250 6 (by decide) (by decide)).2.1 (by decide)⟩

/-- C19 (as stated, refuted): a byte target holding 250 takes `AssignAddºIntInt` with 1
successfully and then holds the 64-bit integer 251; a second `AssignAddºIntInt` with 10
on that target succeeds and stores 261, although `250 + 1 + 10` is above 255. -/
theorem AssignAdd_byte_check_lost :
    stdlib.AssignAddIntInt stdlib.errorTextExample (Value.uint8 250) 1 =
      some ⟨Value.int64 251, 251, none⟩ ∧
    ((stdlib.AssignAddIntInt stdlib.errorTextExample (Value.uint8 250) 1).bind
      (fun r => stdlib.AssignAddIntInt stdlib.errorTextExample r.ptr 10)) =
        some ⟨Value.int64 261, 261, none⟩ ∧
    (255 : Int) < 250 + 1 + 10 := by
  decide

/-- C19 (amended): after a successful `AssignAddºIntInt(target, v1)` on a byte target
holding `b`, the target holds the 64-bit integer `b + v1`, no longer a byte; a second
`AssignAddºIntInt(target, v2)` on it never fails and stores the 64-bit sum; the byte-range
check is applied to `b + v1 + v2` only when the target again holds the byte `b + v1`. -/
theorem AssignAdd_byte_twice (errorText : core.ErrID → String) (b : Nat) (v1 v2 : Int)
    (hb : b ≤ 255) (hv1 : -9223372036854775808 ≤ v1 ∧ v1 < 9223372036854775808)
    (hv2 : -9223372036854775808 ≤ v2 ∧ v2 < 9223372036854775808)
    (h1 : 0 ≤ (b : Int) + v1 ∧ (b : Int) + v1 ≤ 255) :
    stdlib.AssignAddIntInt errorText (Value.uint8 b) v1 =
      some ⟨Value.int64 ((b : Int) + v1), (b : Int) + v1, none⟩ ∧
    ((stdlib.AssignAddIntInt errorText (Value.uint8 b) v1).bind
      (fun r => stdlib.AssignAddIntInt errorText r.ptr v2)) =
        some ⟨Value.int64 (stdlib.wrapInt64 ((b : Int) + v1 + v2)),
          stdlib.wrapInt64 ((b : Int) + v1 + v2), none⟩ ∧
    (((b : Int) + v1 + v2 < 9223372036854775808) →
      stdlib.wrapInt64 ((b : Int) + v1 + v2) = (b : Int) + v1 + v2) ∧
    ((stdlib.AssignAddIntInt errorText (Value.uint8 ((b : Int) + v1).toNat) v2).bind
        (fun r => r.err) = some (GoError.errorf (errorText core.ErrID.ErrByteOut)) ↔
      ((b : Int) + v1 + v2 < 0 ∨ 255 < (b : Int) + v1 + v2)) := by
  have hfirst : stdlib.AssignAddIntInt errorText (Value.uint8 b) v1 =
      some ⟨Value.int64 ((b : Int) + v1), (b : Int) + v1, none⟩ := by
    have hn : ¬ ((b : Int) + v1 < 0 ∨ 255 < (b : Int) + v1) := by omega
    rw [AssignAddIntInt_uint8 errorText b v1 hb hv1, if_neg hn]
  refine ⟨hfirst, ?_, ?_, ?_⟩
  · rw [hfirst]
    simp only [Option.some_bind, stdlib.AssignAddIntInt, stdlib.add64]
  · intro hlt
    exact wrapInt64_of_range _ (by omega) hlt
  · have hb2 : ((b : Int) + v1).toNat ≤ 255 := by omega
    have hcast : ((((b : Int) + v1).toNat : Nat) : Int) = (b : Int) + v1 := by omega
    have hiff := AssignAddIntInt_uint8_err errorText ((b : Int) + v1).toNat v2 hb2 hv2
    rw [hcast] at hiff
    exact hiff

theorem AssignAdd_byte_twice_witness :
    (250 : Nat) ≤ 255 ∧
    ((-9223372036854775808 : Int) ≤ 1 ∧ (1 : Int) < 9223372036854775808) ∧
    ((-9223372036854775808 : Int) ≤ 10 ∧ (10 : Int) < 9223372036854775808) ∧
    ((0 : Int) ≤ (250 : Nat) + 1 ∧ ((250 : Nat) : Int) + 1 ≤ 255) ∧
    ((stdlib.AssignAddIntInt stdlib.errorTextExample (Value.uint8 250) 1).bind
      (fun r => stdlib.AssignAddIntInt stdlib.errorTextExample r.ptr 10)) =
        some ⟨Value.int64 (stdlib.wrapInt64 (((250 : Nat) : Int) + 1 + 10)),
          stdlib.wrapInt64 (((250 : Nat) : Int) + 1 + 10), none⟩ :=
  ⟨by decide, by decide, by decide, by decide,
    (AssignAdd_byte_twice stdlib.errorTextExample 250 1 10 (by decide) (by decide) (by decide)
      (by decide)).2.1⟩

/-- C20 (as stated, refuted): with `settings.Cycle = 2^63` the effective cycle cap is
`2^63`, the run completes, and the integer stored in the cycle-limit constant is `-2^63`:
neither equal to the cap nor positive. -/
theorem Run_cycle_const_negative :
    wrapInt32 (12 - 10) = envQuiet.ConstCycleID ∧
    (applyDefaults { settingsZero with Cycle := 9223372036854775808 }).Cycle =
      9223372036854775808 ∧
    (Run envQuiet (some (execOf [10, 12] 11 22))
      { settingsZero with Cycle := 9223372036854775808 } osDefault).ret = ReturnSite.done ∧
    ((Run envQuiet (some (execOf [10, 12] 11 22))
      { settingsZero with Cycle := 9223372036854775808 } osDefault).vm.bind
        (fun vm => vm.Consts 12)) =
      some ⟨core.TYPEINT, some (Value.int64 (-9223372036854775808))⟩ ∧
    ((Run envQuiet (some (execOf [10, 12] 11 22))
      { settingsZero with Cycle := 9223372036854775808 } osDefault).vm.bind
        (fun vm => vm.Consts 12)) ≠
      some ⟨core.TYPEINT, some (Value.int64 9223372036854775808)⟩ := by
  decide

/-- C20 (amended): in a completed run, for settings whose `Cycle` is a `uint64` and whose
`Depth` is a `uint32`, the integer stored in the depth-limit constant equals the
effective depth cap and is positive; the integer stored in the cycle-limit constant
equals the effective cycle cap and is positive when `Cycle` is below `2^63`; for `Cycle`
from `2^63` on it is the cap minus `2^64`, a negative integer. -/
theorem Run_limit_consts (h : Env) (exec : core.Exec) (settings : Settings)
    (os : StdHandles) (base : Int) (rest : List Int) (cid : Int)
    (hd : h.ConstDepthID ≠ h.ConstCycleID)
    (hinit : exec.Init = base :: rest) (hcid : cid ∈ rest)
    (hret : (Run h (some exec) settings os).ret = ReturnSite.done)
    (hC : (playgroundInit h settings).1.Cycle < 18446744073709551616)
    (hD : (playgroundInit h settings).1.Depth < 4294967296) :
    ∃ vm, (Run h (some exec) settings os).vm = some vm ∧
      vm.Settings = applyDefaults (playgroundInit h settings).1 ∧
      (wrapInt32 (cid - base) = h.ConstDepthID →
        vm.Consts cid = some ⟨core.TYPEINT, some (Value.int64 (vm.Settings.Depth : Int))⟩ ∧
        0 < (vm.Settings.Depth : Int)) ∧
      (wrapInt32 (cid - base) = h.ConstCycleID →
        (playgroundInit h settings).1.Cycle < 9223372036854775808 →
        vm.Consts cid = some ⟨core.TYPEINT, some (Value.int64 (vm.Settings.Cycle : Int))⟩ ∧
        0 < (vm.Settings.Cycle : Int)) ∧
      (wrapInt32 (cid - base) = h.ConstCycleID →
        9223372036854775808 ≤ (playgroundInit h settings).1.Cycle →
        vm.Consts cid = some ⟨core.TYPEINT,
          some (Value.int64 ((vm.Settings.Cycle : Int) - 18446744073709551616))⟩ ∧
        (vm.Settings.Cycle : Int) - 18446744073709551616 < 0) := by
  obtain ⟨st, _, hrun⟩ := Run_done_inv h exec settings os hret
  have hvm : (Run h (some exec) settings os).vm = some st.vm := by rw [hrun]; rfl
  have hS := (Run_vm_frame h exec settings os st.vm hvm).1
  have hcyc : st.vm.Settings.Cycle =
      (if (playgroundInit h settings).1.Cycle = 0 then 16000000
        else (playgroundInit h settings).1.Cycle) := by
    rw [hS, applyDefaults_Cycle]
  have hdep : st.vm.Settings.Depth =
      (if (playgroundInit h settings).1.Depth = 0 then 1000
        else (playgroundInit h settings).1.Depth) := by
    rw [hS, applyDefaults_Depth]
  refine ⟨st.vm, hvm, hS, ?_, ?_, ?_⟩
  · intro hk
    obtain ⟨vm, hvm2, _, _, hc⟩ := Run_done_slot h exec settings os base rest cid hinit hcid
      (isSlot_of_eq h _ (Or.inl hk)) hret
    rw [hvm] at hvm2
    cases hvm2
    have hlt : st.vm.Settings.Depth < 9223372036854775808 := by
      rw [hdep]
      split_ifs <;> omega
    have hpos : 0 < st.vm.Settings.Depth := by
      rw [hdep]
      split_ifs <;> omega
    rw [hc, slotConst_depth h _ _ hk, toInt64_small _ hlt]
    exact ⟨rfl, by omega⟩
  · intro hk hsmall
    obtain ⟨vm, hvm2, _, _, hc⟩ := Run_done_slot h exec settings os base rest cid hinit hcid
      (isSlot_of_eq h _ (Or.inr (Or.inl hk))) hret
    rw [hvm] at hvm2
    cases hvm2
    have hlt : st.vm.Settings.Cycle < 9223372036854775808 := by
      rw [hcyc]
      split_ifs <;> omega
    have hpos : 0 < st.vm.Settings.Cycle := by
      rw [hcyc]
      split_ifs <;> omega
    rw [hc, slotConst_cycle h _ _ hd hk, toInt64_small _ hlt]
    exact ⟨rfl, by omega⟩
  · intro hk hbig
    obtain ⟨vm, hvm2, _, _, hc⟩ := Run_done_slot h exec settings os base rest cid hinit hcid
      (isSlot_of_eq h _ (Or.inr (Or.inl hk))) hret
    rw [hvm] at hvm2
    cases hvm2
    have hge : 9223372036854775808 ≤ st.vm.Settings.Cycle := by
      rw [hcyc]
      split_ifs <;> omega
    have hlt : st.vm.Settings.Cycle < 18446744073709551616 := by
      rw [hcyc]
      split_ifs <;> omega
    rw [hc, slotConst_cycle h _ _ hd hk, toInt64_big _ hge hlt]
    exact ⟨rfl, by omega⟩

theorem Run_limit_consts_witness :
    envQuiet.ConstDepthID ≠ envQuiet.ConstCycleID ∧
    (execOf [10, 11, 12] 11 22).Init = 10 :: [11, 12] ∧ (12 : Int) ∈ [(11 : Int), 12] ∧
    (Run envQuiet (some (execOf [10, 11, 12] 11 22)) settingsZero osDefault).ret =
      ReturnSite.done ∧
    (playgroundInit envQuiet settingsZero).1.Cycle < 18446744073709551616 ∧
    (playgroundInit envQuiet settingsZero).1.Depth < 4294967296 ∧
    ∃ vm, (Run envQuiet (some (execOf [10, 11, 12] 11 22)) settingsZero osDefault).vm = some vm ∧
      vm.Settings = applyDefaults (playgroundInit envQuiet settingsZero).1 ∧
      (wrapInt32 (12 - 10) = envQuiet.ConstDepthID →
        vm.Consts 12 = some ⟨core.TYPEINT, some (Value.int64 (vm.Settings.Depth : Int))⟩ ∧
        0 < (vm.Settings.Depth : Int)) ∧
      (wrapInt32 (12 - 10) = envQuiet.ConstCycleID →
        (playgroundInit envQuiet settingsZero).1.Cycle < 9223372036854775808 →
        vm.Consts 12 = some ⟨core.TYPEINT, some (Value.int64 (vm.Settings.Cycle : Int))⟩ ∧
        0 < (vm.Settings.Cycle : Int)) ∧
      (wrapInt32 (12 - 10) = envQuiet.ConstCycleID →
        9223372036854775808 ≤ (playgroundInit envQuiet settingsZero).1.Cycle →
        vm.Consts 12 = some ⟨core.TYPEINT,
          some (Value.int64 ((vm.Settings.Cycle : Int) - 18446744073709551616))⟩ ∧
        (vm.Settings.Cycle : Int) - 18446744073709551616 < 0) :=
  ⟨by decide, rfl, by decide, by decide, by decide, by decide,
    Run_limit_consts envQuiet (execOf [10, 11, 12] 11 22) settingsZero osDefault 10 [11, 12] 12
      (by decide) rfl (by decide) (by decide) (by decide) (by decide)⟩

/-- C21: provided each initializer that `Run` runs returns an integer, float, bool, char
or string (for every init element `id` after the first that is not a well-known slot, in
the state `st` the loop has reached before it, the initializer at `Funcs[id]`, when it
returns without error, returns one of the five kinds), every entry of the constants table
of the VM that `Run` builds is consistent with the stack its tag selects: if the low
nibble of the tag is `STACKINT` the value is a 64-bit integer, if `STACKSTR` a string, if
`STACKFLOAT` a float, and the low nibble is never `STACKNONE` or `STACKANY`.  Nothing is
asked of the iota base, of the well-known slots or of the root context.  The entry of the
iota base, the entry of each well-known slot and the entry made from an initializer's
value each pass this check. -/
theorem Run_consts_stack_consistent (h : Env) (exec : core.Exec) (settings : Settings)
    (os : StdHandles)
    (hkind : ∀ (base : Int) (mid : List Int) (id : Int) (post : List Int) (st : InitState),
      exec.Init = base :: (mid ++ id :: post) →
      initLoop h 0 (base :: mid)
        ⟨0, newVM exec (playgroundInit h settings).1, (playgroundInit h settings).2.2⟩ =
          (none, st) →
      isSlot h (wrapInt32 (id - base)) = false →
      (h.RuntimeRun st.vm ((exec.Funcs id).getD 0)).2 = none →
      isConstKind (h.RuntimeRun st.vm ((exec.Funcs id).getD 0)).1 = true) :
    (∀ vm, (Run h (some exec) settings os).vm = some vm → ∀ id c, vm.Consts id = some c →
      (c.Typ &&& 0xF = core.STACKINT → ∃ v, c.Value = some (Value.int64 v)) ∧
      (c.Typ &&& 0xF = core.STACKSTR → ∃ t, c.Value = some (Value.string t)) ∧
      (c.Typ &&& 0xF = core.STACKFLOAT → ∃ f, c.Value = some (Value.float64 f)) ∧
      c.Typ &&& 0xF ≠ core.STACKNONE ∧ c.Typ &&& 0xF ≠ core.STACKANY) ∧
    Const.stackConsistent ⟨core.TYPEINT, some (Value.int64 0)⟩ = true ∧
    (∀ (vm : VM) (k : Int), (slotConst h vm k).stackConsistent = true) ∧
    (∀ val, isConstKind val = true → (constOfValue val).stackConsistent = true) := by
  refine ⟨?_, stackConsistent_base, stackConsistent_slotConst h, stackConsistent_constOfValue⟩
  intro vm hvm id c hc
  apply stackConsistent_spec
  have hloop := Run_vm_loop h exec settings os vm hvm
  rw [hloop] at hc
  refine initLoop_consistent_calls h
    ⟨0, newVM exec (playgroundInit h settings).1, (playgroundInit h settings).2.2⟩ exec.Init
    ?_ exec.Init [] _ rfl rfl (fun _ _ hn => by cases hn) id c hc
  intro pre id1 post st hall hne hpre hs he
  cases pre with
  | nil => exact absurd rfl hne
  | cons base mid =>
    have hsh := initLoop_start_shift h base mid _ _ st hpre
    have hfr := (initLoop_frame h (base :: mid) 0
      ⟨0, newVM exec (playgroundInit h settings).1, (playgroundInit h settings).2.2⟩).2
    rw [hpre] at hfr
    have hE : st.vm.Exec = exec := hfr
    have hoff : initOffset st.vm id1 = (exec.Funcs id1).getD 0 := by
      unfold initOffset
      rw [hE]
    rw [hsh] at hs
    rw [hoff] at he ⊢
    exact hkind base mid id1 post st hall hpre hs he

/-- The proviso of C21 at the image `execInit100` in the environment `envInitInt`: the
only initializer run is the one of id 100, at offset 10, and it returns an integer. -/
theorem execInit100_kinds (settings : Settings) :
    ∀ (base : Int) (mid : List Int) (id : Int) (post : List Int) (st : InitState),
      execInit100.Init = base :: (mid ++ id :: post) →
      initLoop envInitInt 0 (base :: mid)
        ⟨0, newVM execInit100 (playgroundInit envInitInt settings).1,
          (playgroundInit envInitInt settings).2.2⟩ = (none, st) →
      isSlot envInitInt (wrapInt32 (id - base)) = false →
      (envInitInt.RuntimeRun st.vm ((execInit100.Funcs id).getD 0)).2 = none →
      isConstKind (envInitInt.RuntimeRun st.vm ((execInit100.Funcs id).getD 0)).1 = true := by
  intro base mid id post st hsplit _ _ _
  have hinit : execInit100.Init = [0, 100] := rfl
  rw [hinit] at hsplit
  cases mid with
  | nil =>
    simp only [List.nil_append, List.cons.injEq] at hsplit
    obtain ⟨_, hid, _⟩ := hsplit
    subst hid
    rfl
  | cons b m =>
    simp only [List.cons_append, List.cons.injEq] at hsplit
    obtain ⟨_, _, hrest⟩ := hsplit
    cases m <;> simp at hrest

theorem Run_consts_stack_consistent_witness :
    (∀ (base : Int) (mid : List Int) (id : Int) (post : List Int) (st : InitState),
      execInit100.Init = base :: (mid ++ id :: post) →
      initLoop envInitInt 0 (base :: mid)
        ⟨0, newVM execInit100 (playgroundInit envInitInt settingsZero).1,
          (playgroundInit envInitInt settingsZero).2.2⟩ = (none, st) →
      isSlot envInitInt (wrapInt32 (id - base)) = false →
      (envInitInt.RuntimeRun st.vm ((execInit100.Funcs id).getD 0)).2 = none →
      isConstKind (envInitInt.RuntimeRun st.vm ((execInit100.Funcs id).getD 0)).1 = true) ∧
    (Run envInitInt (some execInit100) settingsZero osDefault).ret = ReturnSite.done ∧
    (Run envInitInt (some execInit100) settingsZero osDefault).result = none ∧
    ((Run envInitInt (some execInit100) settingsZero osDefault).vm.bind
      (fun vm => vm.Consts 100)) = some ⟨core.TYPEINT, some (Value.int64 7)⟩ ∧
    (∀ vm, (Run envInitInt (some execInit100) settingsZero osDefault).vm = some vm →
      ∀ id c, vm.Consts id = some c →
      (c.Typ &&& 0xF = core.STACKINT → ∃ v, c.Value = some (Value.int64 v)) ∧
      (c.Typ &&& 0xF = core.STACKSTR → ∃ t, c.Value = some (Value.string t)) ∧
      (c.Typ &&& 0xF = core.STACKFLOAT → ∃ f, c.Value = some (Value.float64 f)) ∧
      c.Typ &&& 0xF ≠ core.STACKNONE ∧ c.Typ &&& 0xF ≠ core.STACKANY) :=
  ⟨execInit100_kinds settingsZero, by decide, by decide, by decide,
    (Run_consts_stack_consistent envInitInt execInit100 settingsZero osDefault
      (execInit100_kinds settingsZero)).1⟩

end Gentee
